import Mathlib

/-!
Verification of the mtgjson-sdk data-access layer.

This file shallowly embeds the Go sources of the repository: the board
quantity maps of a deck (`map[string]int64` in Go) become association
lists over `String`, the MongoDB collaborator becomes an explicit record
of collections, and every repository operation becomes a pure function
returning its result together with the list of persistence calls it
issued.  Theorems at the end settle the specification claims against
these definitions.
-/

set_option maxHeartbeats 1000000

/-- A Go `map[string]V` value, embedded as an association list.  A Go map
holds at most one binding per key; lists produced by the operations below
preserve that shape, and theorems that depend on it take it as an explicit
hypothesis on inputs. -/
abbrev SMap (α : Type) := List (String × α)

/-- Embedding of a Go map read `m[k]` returning the binding, if any
(`v, ok := m[k]`). -/
def SMap.find {α : Type} (m : SMap α) (k : String) : Option α :=
  (m.find? (fun p => p.1 == k)).map (fun p => p.2)

/-- Embedding of a Go map assignment `m[k] = v`: replace the binding for
`k` if present, otherwise add one. -/
def SMap.set {α : Type} : SMap α → String → α → SMap α
  | [], k, v => [(k, v)]
  | p :: t, k, v => if p.1 == k then (k, v) :: t else p :: SMap.set t k v

/-- Embedding of Go `delete(m, k)`. -/
def SMap.del {α : Type} (m : SMap α) (k : String) : SMap α :=
  m.filter (fun p => !(p.1 == k))

/-- The key list of a Go map (`maps.Keys`, order abstracted as list order). -/
def SMap.keys {α : Type} (m : SMap α) : List String :=
  m.map Prod.fst

@[simp]
theorem SMap.find_nil {α : Type} (k : String) : SMap.find ([] : SMap α) k = none := rfl

theorem SMap.find_cons {α : Type} (p : String × α) (t : SMap α) (k : String) :
    SMap.find (p :: t) k = if p.1 = k then some p.2 else SMap.find t k := by
  by_cases h : p.1 = k
  · rw [if_pos h]
    unfold SMap.find
    rw [List.find?_cons_of_pos _ (by simpa using h)]
    rfl
  · rw [if_neg h]
    unfold SMap.find
    rw [List.find?_cons_of_neg _ (by simpa using h)]

theorem SMap.find_set_self {α : Type} (m : SMap α) (k : String) (v : α) :
    (SMap.set m k v).find k = some v := by
  induction m with
  | nil => simp [SMap.set, SMap.find_cons]
  | cons p t ih =>
    by_cases h : p.1 = k
    · simp [SMap.set, h, SMap.find_cons]
    · simp only [SMap.set, beq_iff_eq, h, if_false]
      rw [SMap.find_cons, if_neg h]
      exact ih

theorem SMap.find_set_ne {α : Type} (m : SMap α) (k j : String) (v : α) (h : j ≠ k) :
    (SMap.set m k v).find j = m.find j := by
  induction m with
  | nil => simp [SMap.set, SMap.find_cons, Ne.symm h]
  | cons p t ih =>
    by_cases hp : p.1 = k
    · simp [SMap.set, hp, SMap.find_cons, Ne.symm h]
    · simp only [SMap.set, beq_iff_eq, hp, if_false]
      rw [SMap.find_cons, SMap.find_cons]
      by_cases hj : p.1 = j
      · simp [hj]
      · simp [hj, ih]

theorem SMap.find_del_self {α : Type} (m : SMap α) (k : String) :
    (SMap.del m k).find k = none := by
  induction m with
  | nil => rfl
  | cons p t ih =>
    unfold SMap.del at ih ⊢
    rw [List.filter_cons]
    by_cases hp : p.1 = k
    · rw [if_neg (by simp [hp])]
      exact ih
    · rw [if_pos (by simp [hp]), SMap.find_cons, if_neg hp]
      exact ih

theorem SMap.find_del_ne {α : Type} (m : SMap α) (k j : String) (h : j ≠ k) :
    (SMap.del m k).find j = m.find j := by
  induction m with
  | nil => rfl
  | cons p t ih =>
    unfold SMap.del at ih ⊢
    rw [List.filter_cons]
    by_cases hp : p.1 = k
    · have hpj : p.1 ≠ j := by rw [hp]; exact Ne.symm h
      rw [if_neg (by simp [hp]), SMap.find_cons, if_neg hpj]
      exact ih
    · rw [if_pos (by simp [hp]), SMap.find_cons, SMap.find_cons]
      by_cases hj : p.1 = j
      · simp [hj]
      · simp [hj, ih]

theorem SMap.mem_of_find {α : Type} {m : SMap α} {k : String} {v : α}
    (h : m.find k = some v) : (k, v) ∈ m := by
  unfold SMap.find at h
  rcases Option.map_eq_some'.mp h with ⟨p, hp, hv⟩
  have hk : p.1 = k := by
    have := List.find?_some hp
    simpa using this
  have hmem := List.mem_of_find?_eq_some hp
  have : p = (k, v) := by
    cases p
    simp only at hk hv
    simp [hk, hv]
  rwa [this] at hmem

theorem SMap.mem_set {α : Type} {m : SMap α} {k : String} {v : α} {p : String × α}
    (h : p ∈ SMap.set m k v) : p = (k, v) ∨ p ∈ m := by
  induction m with
  | nil => simpa [SMap.set] using h
  | cons q t ih =>
    by_cases hq : q.1 = k
    · simp only [SMap.set, beq_iff_eq, hq, if_true, List.mem_cons] at h
      rcases h with h | h
      · exact Or.inl h
      · exact Or.inr (List.mem_cons_of_mem _ h)
    · simp only [SMap.set, beq_iff_eq, hq, if_false, List.mem_cons] at h
      rcases h with h | h
      · exact Or.inr (by simp [h])
      · rcases ih h with h | h
        · exact Or.inl h
        · exact Or.inr (List.mem_cons_of_mem _ h)

theorem SMap.mem_del {α : Type} {m : SMap α} {k : String} {p : String × α}
    (h : p ∈ SMap.del m k) : p ∈ m :=
  List.mem_of_mem_filter h

/-- A deck board: Go `map[string]int64` from card id to quantity
(src/deck/deck.go, map-based revision). -/
abbrev Board := SMap Int

/-- Embedding of a bare Go map read `m[k]` on an `int64`-valued map: the
zero value `0` stands in for an absent key. -/
def Board.get (b : Board) (k : String) : Int :=
  (SMap.find b k).getD 0

/-- The error values of github.com/stevezaluk/mtgjson-models/errors used
by the operations embedded here. -/
inductive SdkError where
  | errNoCard
  | errNoCards
  | errInvalidUUID
  | errCardMissingId
  | errCardAlreadyExist
  | errCardDeleteFailed
  | errNoDeck
  | errNoDecks
  | errDeckMissingId
  | errDeckAlreadyExists
  | errDeckUpdateFailed
  | errDeckDeleteFailed
  | errDeckMissingContentIds
  | errBoardNotExist
  | errNoUser
  | errUserMissingId
  | errInvalidEmail
  | errUserAlreadyExist
  deriving DecidableEq, Repr

/-- meta.MTGJSONAPIMeta from github.com/stevezaluk/mtgjson-models/meta. -/
structure MTGJSONAPIMeta where
  owner : String
  type : String
  subtype : String
  creationDate : String
  modifiedDate : String
  deriving DecidableEq, Repr

/-- card.CardIdentifiers, reduced to the single identifier field the SDK
reads (`identifiers.mtgjsonV4Id`). -/
structure CardIdentifiers where
  mtgjsonV4Id : String
  deriving DecidableEq, Repr

/-- card.CardSet, reduced to the fields the embedded operations read.
`identifiers` and `mtgjsonApiMeta` are pointers in Go, hence `Option`. -/
structure CardSet where
  name : String
  identifiers : Option CardIdentifiers
  mtgjsonApiMeta : Option MTGJSONAPIMeta
  deriving DecidableEq, Repr

/-- The identifier of a card, if its `identifiers` structure is present. -/
def CardSet.cardId (c : CardSet) : Option String :=
  c.identifiers.map (fun i => i.mtgjsonV4Id)

/-- deck.DeckContentIds (map-based revision): one quantity map per board. -/
structure DeckContentIds where
  mainBoard : Board
  sideBoard : Board
  commander : Board
  deriving DecidableEq, Repr

/-- deck.DeckContentEntry: a hydrated entry pairing a quantity with the
resolved card. -/
structure DeckContentEntry where
  quantity : Int
  card : CardSet
  deriving DecidableEq, Repr

/-- deck.DeckContents: the hydrated (never persisted) per-board maps. -/
structure DeckContents where
  mainBoard : SMap DeckContentEntry
  sideBoard : SMap DeckContentEntry
  commander : SMap DeckContentEntry
  deriving DecidableEq, Repr

/-- deck.Deck, reduced to the fields the embedded operations read. -/
structure Deck where
  code : String
  name : String
  releaseDate : String
  mainBoard : Board
  sideBoard : Board
  commander : Board
  contents : Option DeckContentIds
  mtgjsonApiMeta : Option MTGJSONAPIMeta
  deriving DecidableEq, Repr

/-- user.User, reduced to the fields the embedded operations read. -/
structure User where
  username : String
  email : String
  auth0Id : String
  deriving DecidableEq, Repr

/-- A MongoDB filter document as built by the SDK: either the natural-key
equality alone, or the natural key conjoined with the
`mtgjsonApiMeta.owner` equality. -/
inductive QueryFilter where
  | byKey (field : String) (value : String)
  | byKeyOwner (field : String) (value : String) (owner : String)
  deriving DecidableEq, Repr

/-- One persistence call issued against the document store
(src/server/database.go). -/
inductive DbCall where
  | find (collection : String) (filter : QueryFilter)
  | findMultiple (collection : String) (key : String) (values : List String)
  | insert (collection : String)
  | replace (collection : String) (filter : QueryFilter)
  | delete (collection : String) (filter : QueryFilter)
  deriving DecidableEq, Repr

/-- The state of the document store: one collection per entity kind. -/
structure DB where
  cards : List CardSet
  decks : List Deck
  users : List User
  deriving DecidableEq, Repr

/-- Whether a deck document matches a filter whose key field is `code`
and whose optional owner conjunct is `mtgjsonApiMeta.owner` (a document
without the meta block cannot match an owner equality). -/
def Deck.matches (d : Deck) : QueryFilter → Bool
  | .byKey _ v => d.code == v
  | .byKeyOwner _ v o =>
    d.code == v &&
      (match d.mtgjsonApiMeta with
       | some m => m.owner == o
       | none => false)

/-- Whether a card document matches a filter whose key field is
`identifiers.mtgjsonV4Id` (absent nested field matches nothing). -/
def CardSet.matchesFilter (c : CardSet) : QueryFilter → Bool
  | .byKey _ v => c.cardId == some v
  | .byKeyOwner _ v o =>
    c.cardId == some v &&
      (match c.mtgjsonApiMeta with
       | some m => m.owner == o
       | none => false)

/-- `Database.Find` on the deck collection: the first matching document,
if any (`FindOne`). -/
def DB.findDeck (db : DB) (f : QueryFilter) : Option Deck :=
  db.decks.find? (fun d => d.matches f)

/-- `Database.Find` on the card collection. -/
def DB.findCard (db : DB) (f : QueryFilter) : Option CardSet :=
  db.cards.find? (fun c => c.matchesFilter f)

/-- `Database.Find` on the user collection (keyed by `email`). -/
def DB.findUser (db : DB) (email : String) : Option User :=
  db.users.find? (fun u => u.email == email)

/-- `Database.Replace` on the deck collection: MongoDB `ReplaceOne`
replaces the first matching document and succeeds even when nothing
matches, so this total function models the call exactly except for
driver-level connection failures, which the pure model has no analogue
of. -/
def DB.replaceDeck (db : DB) (f : QueryFilter) (d : Deck) : DB :=
  { db with
    decks :=
      match db.decks.findIdx? (fun x => x.matches f) with
      | some i => db.decks.set i d
      | none => db.decks }

/-- `Database.Delete` on the card collection: MongoDB `DeleteOne` removes
the first matching document; the SDK maps a zero deleted-count to a
`false` result. -/
def DB.deleteCard (db : DB) (f : QueryFilter) : Option DB :=
  match db.cards.findIdx? (fun c => c.matchesFilter f) with
  | some i => some { db with cards := db.cards.eraseIdx i }
  | none => none

/-- `Database.Insert` on the deck collection (`InsertOne`). -/
def DB.insertDeck (db : DB) (d : Deck) : DB :=
  { db with decks := db.decks ++ [d] }

/-- The `[0-9a-f]` character class of UUIDRegexPattern
(src/card/card.go). -/
def isHexLower (c : Char) : Bool :=
  (('0' ≤ c) && (c ≤ '9')) || (('a' ≤ c) && (c ≤ 'f'))

/-- Consume exactly `n` characters of class `[0-9a-f]`
(a `[0-9a-f]{n}` regex atom). -/
def hexRun : Nat → List Char → Option (List Char)
  | 0, cs => some cs
  | _ + 1, [] => none
  | n + 1, c :: cs => if isHexLower c then hexRun n cs else none

/-- Consume one literal character. -/
def litChar (ch : Char) : List Char → Option (List Char)
  | [] => none
  | c :: cs => if c = ch then some cs else none

/-- Consume one `[89ab]` character (the variant-nibble atom of
UUIDRegexPattern). -/
def variantNibble : List Char → Option (List Char)
  | [] => none
  | c :: cs => if c = '8' ∨ c = '9' ∨ c = 'a' ∨ c = 'b' then some cs else none

/-- The anchored regex
`^[0-9a-f]{8}-[0-9a-f]{4}-5[0-9a-f]{3}-[89ab][0-9a-f]{3}-[0-9a-f]{12}$`
(`UUIDRegexPattern`, src/card/card.go), embedded as a matcher that
consumes its input atom by atom. -/
def matchUUIDPattern (cs : List Char) : Option (List Char) :=
  (hexRun 8 cs).bind (fun cs =>
  (litChar '-' cs).bind (fun cs =>
  (hexRun 4 cs).bind (fun cs =>
  (litChar '-' cs).bind (fun cs =>
  (litChar '5' cs).bind (fun cs =>
  (hexRun 3 cs).bind (fun cs =>
  (litChar '-' cs).bind (fun cs =>
  (variantNibble cs).bind (fun cs =>
  (hexRun 3 cs).bind (fun cs =>
  (litChar '-' cs).bind (fun cs =>
  hexRun 12 cs))))))))))

/-- card.ValidateUUID: true iff the whole string matches
UUIDRegexPattern (the pattern is anchored with `^` and `$`). -/
def ValidateUUID (uuid : String) : Bool :=
  matchUUIDPattern uuid.data == some []

/-- The `[\w\.-]` class of the email regex in src/user/user.go
(Go `\w` is `[0-9A-Za-z_]`). -/
def isLocalChar (c : Char) : Bool :=
  c.isAlpha || c.isDigit || c == '_' || c == '.' || c == '-'

/-- The `[a-zA-Z\d\.-]` class of the email regex. -/
def isDomainChar (c : Char) : Bool :=
  c.isAlpha || c.isDigit || c == '.' || c == '-'

/-- Split a character list at the first occurrence of `ch`. -/
def splitAtFirst (ch : Char) : List Char → Option (List Char × List Char)
  | [] => none
  | c :: t =>
    if c = ch then some ([], t)
    else (splitAtFirst ch t).map (fun p => (c :: p.1, p.2))

/-- Split a character list at the last occurrence of `ch`. -/
def splitAtLast (ch : Char) : List Char → Option (List Char × List Char)
  | [] => none
  | c :: t =>
    match splitAtLast ch t with
    | some (d, r) => some (c :: d, r)
    | none => if c = ch then some ([], t) else none

/-- user.validateEmail: decision procedure for the anchored regex
`^[\w\.-]+@[a-zA-Z\d\.-]+\.[a-zA-Z]{2,}$` (src/user/user.go).  No
character class of the pattern admits `@`, so the `@` of the pattern can
only match the first `@` of the subject; the `[a-zA-Z]{2,}$` tail admits
no `.`, so the `\.` can only match the last `.` after the `@`. -/
def validateEmail (email : String) : Bool :=
  match splitAtFirst '@' email.data with
  | none => false
  | some (localPart, rest) =>
    match splitAtLast '.' rest with
    | none => false
    | some (domain, tld) =>
      (!localPart.isEmpty) && localPart.all isLocalChar &&
      (!domain.isEmpty) && domain.all isDomainChar &&
      decide (2 ≤ tld.length) && tld.all (fun c => c.isAlpha)

/-- user.SystemUser: the reserved owner for unattributed entities. -/
def SystemUser : String := "system"

/-- The query-building idiom shared by deck.GetDeck and deck.DeleteDeck
(src/deck/deck.go): start from the code equality and overwrite with the
code-and-owner conjunction when the owner string is non-empty. -/
def deckKeyQuery (code owner : String) : QueryFilter :=
  if owner ≠ "" then .byKeyOwner "code" code owner
  else .byKey "code" code

/-- The query-building idiom of card.GetCard / card.DeleteCard in the
final card revision (src/unnamed/part_002). -/
def cardKeyQuery (uuid owner : String) : QueryFilter :=
  if owner ≠ "" then .byKeyOwner "identifiers.mtgjsonV4Id" uuid owner
  else .byKey "identifiers.mtgjsonV4Id" uuid

/-- The query built by the earlier card.GetCard revision
(src/card/card.go lines 107-127): its owner branch reassigns the local
variable (`owner = "system"`, a dead store) instead of the query, so the
filter sent to Find never carries the owner conjunct. -/
def cardKeyQueryLegacy (uuid owner : String) : QueryFilter :=
  QueryFilter.byKey "identifiers.mtgjsonV4Id" uuid

/-- user.GetUser: validation, then a single Find on the user collection. -/
def GetUser (db : DB) (email : String) : (Except SdkError User) × List DbCall :=
  if email = "" then (.error .errUserMissingId, [])
  else if validateEmail email = false then (.error .errInvalidEmail, [])
  else
    match db.findUser email with
    | some u => (.ok u, [.find "user" (.byKey "email" email)])
    | none => (.error .errNoUser, [.find "user" (.byKey "email" email)])

/-- deck.GetDeck (src/deck/deck.go): Find with the key(+owner) query. -/
def GetDeck (db : DB) (code owner : String) : (Except SdkError Deck) × List DbCall :=
  let query := deckKeyQuery code owner
  match db.findDeck query with
  | some d => (.ok d, [.find "deck" query])
  | none => (.error .errNoDeck, [.find "deck" query])

/-- deck.ReplaceDeck: one ReplaceOne keyed by the deck code.  The
underlying call fails only on a driver error, which the pure model has
no analogue of, so the `ErrDeckUpdateFailed` branch of the source is
unreachable here and the error component is always `none`. -/
def ReplaceDeck (db : DB) (deck : Deck) : (Option SdkError) × DB × List DbCall :=
  (none, db.replaceDeck (.byKey "code" deck.code) deck,
    [.replace "deck" (.byKey "code" deck.code)])

/-- Result of a mutating repository operation: the Go error value, the
(possibly mutated) entity, the document-store state, and the persistence
calls issued. -/
structure DeckWriteResult where
  err : Option SdkError
  deck : Deck
  db : DB
  trace : List DbCall
  deriving DecidableEq, Repr

/-- Result of a create/delete operation. -/
structure CreateResult where
  err : Option SdkError
  db : DB
  trace : List DbCall
  deriving DecidableEq, Repr

/-- Whether a probe result is exactly `ErrNoDeck`
(`errors.Is(err, ErrNoDeck)` on GetDeck's result). -/
def isErrNoDeck : Except SdkError Deck → Bool
  | .error .errNoDeck => true
  | _ => false

/-- The owner defaulting at the top of every create operation:
`if owner == "" { owner = user.SystemUser }`. -/
def effectiveOwner (owner : String) : String :=
  if owner = "" then SystemUser else owner

/-- The owner-resolution step shared by the create operations: skipped
for the system user, otherwise one `GetUser` lookup whose error aborts
the create. -/
def resolveOwnerStep (db : DB) (owner : String) : (Option SdkError) × List DbCall :=
  if owner ≠ SystemUser then
    match GetUser db owner with
    | (.error e, t) => (some e, t)
    | (.ok _, t) => (none, t)
  else (none, [])

/-- The mutations deck.NewDeck applies to the model before inserting it:
default the contents maps, default the release date, stamp the metadata
block. -/
def stampNewDeck (deck : Deck) (owner now : String) : Deck :=
  let deck :=
    if deck.contents = none then { deck with contents := some ⟨[], [], []⟩ }
    else deck
  let deck :=
    if deck.releaseDate = "" then { deck with releaseDate := now }
    else deck
  { deck with mtgjsonApiMeta := some ⟨owner, "Deck", "", now, now⟩ }

/-- deck.NewDeck (src/deck/deck.go, map-based revision).  `now` stands
for `util.CreateTimestampStr()`, the wall-clock timestamp. -/
def NewDeck (db : DB) (deck : Deck) (owner now : String) : CreateResult :=
  if deck.name = "" ∨ deck.code = "" then ⟨some .errDeckMissingId, db, []⟩
  else
    let owner := effectiveOwner owner
    match resolveOwnerStep db owner with
    | (some e, t) => ⟨some e, db, t⟩
    | (none, t1) =>
      let probe := GetDeck db deck.code owner
      if isErrNoDeck probe.1 = false then
        ⟨some .errDeckAlreadyExists, db, t1 ++ probe.2⟩
      else
        ⟨none, db.insertDeck (stampNewDeck deck owner now),
          t1 ++ probe.2 ++ [.insert "deck"]⟩

/-- card.GetCards (src/unnamed/part_002): one batched `$in` FindMultiple.
`FindMultiple` reports failure only on a driver error and succeeds with
however many documents matched (possibly none), so the `ErrNoCards`
branch of the source is unreachable in the pure model. -/
def resolvedCards (db : DB) (ids : List String) : List CardSet :=
  db.cards.filter (fun c =>
    match c.cardId with
    | some id => ids.contains id
    | none => false)

/-- See `resolvedCards`: the batched fetch together with its trace. -/
def GetCards (db : DB) (cards : List String) :
    (Except SdkError (List CardSet)) × List DbCall :=
  (.ok (resolvedCards db cards),
   [.findMultiple "card" "identifiers.mtgjsonV4Id" cards])

/-- card.GetCard, final revision (src/unnamed/part_002): UUID validation
first, then one Find with the key(+owner) query. -/
def GetCard (db : DB) (uuid owner : String) :
    (Except SdkError CardSet) × List DbCall :=
  if ValidateUUID uuid = false then (.error .errInvalidUUID, [])
  else
    let query := cardKeyQuery uuid owner
    match db.findCard query with
    | some c => (.ok c, [.find "card" query])
    | none => (.error .errNoCard, [.find "card" query])

/-- card.DeleteCard (both revisions, src/card/card.go lines 179-196 and
src/unnamed/part_002 lines 209-224): no UUID validation; one DeleteOne
with the key(+owner) query.  `Database.Delete` already reports failure on
a zero deleted-count, so the source's later `DeletedCount < 1` branch is
unreachable and a no-match delete surfaces as `ErrNoCard`. -/
def DeleteCard (db : DB) (uuid owner : String) : CreateResult :=
  let query := cardKeyQuery uuid owner
  match db.deleteCard query with
  | some db' => ⟨none, db', [.delete "card" query]⟩
  | none => ⟨some .errNoCard, db, [.delete "card" query]⟩

/-- Whether a probe result is exactly `ErrNoCard`
(`errors.Is(err, ErrNoCard)` on GetCard's result). -/
def isErrNoCard : Except SdkError CardSet → Bool
  | .error .errNoCard => true
  | _ => false

/-- card.NewCard (src/unnamed/part_002).  The optional sub-structure
defaulting of the source (legalities, purchase URLs, rulings, ...)
touches fields outside the reduced `CardSet` record and has no
observable effect on the embedded fields.  `now` stands for
`util.CreateTimestampStr()`. -/
def stampNewCard (card : CardSet) (owner now : String) : CardSet :=
  { card with mtgjsonApiMeta := some ⟨owner, "Card", "Set", now, now⟩ }

def NewCard (db : DB) (card : CardSet) (owner now : String) : CreateResult :=
  match card.identifiers with
  | none => ⟨some .errCardMissingId, db, []⟩
  | some idents =>
    let cardId := idents.mtgjsonV4Id
    if card.name = "" ∨ cardId = "" then ⟨some .errCardMissingId, db, []⟩
    else
      let owner := effectiveOwner owner
      match resolveOwnerStep db owner with
      | (some e, t) => ⟨some e, db, t⟩
      | (none, t1) =>
        let probe := GetCard db cardId owner
        if isErrNoCard probe.1 = false then
          ⟨some .errCardAlreadyExist, db, t1 ++ probe.2⟩
        else
          ⟨none, { db with cards := db.cards ++ [stampNewCard card owner now] },
            t1 ++ probe.2 ++ [.insert "card"]⟩

/-- The three recognized board names (src/deck/deck.go constants). -/
def BoardMainboard : String := "mainBoard"

/-- See `BoardMainboard`. -/
def BoardSideboard : String := "sideBoard"

/-- See `BoardMainboard`. -/
def BoardCommander : String := "commander"

/-- deck.GetDeckBoard: select one of the three boards by name, failing
fast on an unrecognized name. -/
def GetDeckBoard (deck : Deck) (board : String) : Except SdkError Board :=
  if board = BoardMainboard then .ok deck.mainBoard
  else if board = BoardSideboard then .ok deck.sideBoard
  else if board = BoardCommander then .ok deck.commander
  else .error .errBoardNotExist

/-- The three board write-backs at the end of deck.AddCards and
deck.RemoveCards (`if board == ... { deck.X = sourceBoard }`). -/
def setBoards (deck : Deck) (board : String) (sb : Board) : Deck :=
  let deck := if board = BoardMainboard then { deck with mainBoard := sb } else deck
  let deck := if board = BoardSideboard then { deck with sideBoard := sb } else deck
  if board = BoardCommander then { deck with commander := sb } else deck

/-- One iteration of the merge loop of deck.AddCards. -/
def addCardsStep (sb : Board) (p : String × Int) : Board :=
  let check := Board.get sb p.1
  if check ≠ 0 then SMap.set sb p.1 (check + p.2)
  else SMap.set sb p.1 p.2

/-- One iteration of the subtract loop of deck.RemoveCards. -/
def removeCardsStep (sb : Board) (p : String × Int) : Board :=
  let check := Board.get sb p.1
  let sb := if check ≠ 0 then SMap.set sb p.1 (check - p.2) else sb
  if Board.get sb p.1 = 0 then SMap.del sb p.1 else sb

/-- deck.AddCards (src/deck/deck.go lines 392-430): fail fast on a
missing code or unknown board, merge the delta into the selected board,
write the board back, and issue one full-document replace.  The delta
map's iteration order is abstracted as list order. -/
def AddCards (db : DB) (deck : Deck) (board : String)
    (contents : List (String × Int)) : DeckWriteResult :=
  if deck.code = "" then ⟨some .errDeckMissingId, deck, db, []⟩
  else
    match GetDeckBoard deck board with
    | .error e => ⟨some e, deck, db, []⟩
    | .ok sourceBoard =>
      let sb := contents.foldl addCardsStep sourceBoard
      let deck := setBoards deck board sb
      let r := ReplaceDeck db deck
      ⟨r.1, deck, r.2.1, r.2.2⟩

/-- deck.RemoveCards (src/deck/deck.go lines 435-475): symmetric to
`AddCards`, deleting a key whose quantity reaches zero. -/
def RemoveCards (db : DB) (deck : Deck) (board : String)
    (contents : List (String × Int)) : DeckWriteResult :=
  if deck.code = "" then ⟨some .errDeckMissingId, deck, db, []⟩
  else
    match GetDeckBoard deck board with
    | .error e => ⟨some e, deck, db, []⟩
    | .ok sourceBoard =>
      let sb := contents.foldl removeCardsStep sourceBoard
      let deck := setBoards deck board sb
      let r := ReplaceDeck db deck
      ⟨r.1, deck, r.2.1, r.2.2⟩

/-- deck.AllCardIds: all card ids across the three quantity maps. -/
def AllCardIds (contents : DeckContentIds) : List String :=
  (contents.mainBoard.keys ++ contents.sideBoard.keys) ++ contents.commander.keys

/-- One per-board emission step of the hydration loop of
deck.GetDeckContents: emit an entry iff the board holds a non-zero
quantity for the card's id. -/
def boardHydrateStep (qmap : Board) (out : SMap DeckContentEntry)
    (id : String) (c : CardSet) : SMap DeckContentEntry :=
  let quantity := Board.get qmap id
  if quantity ≠ 0 then SMap.set out id ⟨quantity, c⟩ else out

/-- One iteration of the hydration loop of deck.GetDeckContents over a
fetched card.  A card without its `identifiers` structure cannot be
returned by the `$in` query on `identifiers.mtgjsonV4Id`, so the `none`
branch is unreachable for `GetCards` results; the Go code dereferences
the pointer unconditionally. -/
def deckHydrateStep (cont : DeckContentIds) (acc : DeckContents)
    (c : CardSet) : DeckContents :=
  match c.identifiers with
  | none => acc
  | some idents =>
    { mainBoard := boardHydrateStep cont.mainBoard acc.mainBoard idents.mtgjsonV4Id c,
      sideBoard := boardHydrateStep cont.sideBoard acc.sideBoard idents.mtgjsonV4Id c,
      commander := boardHydrateStep cont.commander acc.commander idents.mtgjsonV4Id c }

/-- deck.GetDeckContents (src/deck/deck.go lines 318-367): preconditions,
one batched card fetch, then redistribution across the three boards.
The Go precondition `deck.MtgjsonApiMeta.Owner == ""` dereferences the
meta pointer unconditionally (a nil meta would crash); the model folds a
missing meta block into the same empty-owner rejection. -/
def GetDeckContents (db : DB) (deck : Deck) :
    (Except SdkError DeckContents) × List DbCall :=
  match deck.contents with
  | none => (.error .errDeckMissingContentIds, [])
  | some cont =>
    let ownerEmpty : Bool :=
      match deck.mtgjsonApiMeta with
      | some m => m.owner == ""
      | none => true
    if deck.code == "" || ownerEmpty then (.error .errDeckMissingId, [])
    else
      match GetCards db (AllCardIds cont) with
      | (.error e, t) => (.error e, t)
      | (.ok allCards, t) =>
        (.ok (allCards.foldl (deckHydrateStep cont) ⟨[], [], []⟩), t)

@[simp]
theorem Board.get_some {b : Board} {k : String} {c : Int}
    (h : SMap.find b k = some c) : Board.get b k = c := by
  simp [Board.get, h]

@[simp]
theorem Board.get_none {b : Board} {k : String}
    (h : SMap.find b k = none) : Board.get b k = 0 := by
  simp [Board.get, h]

/-- Invariant (b) of the specification: no key of a board maps to a
non-positive quantity. -/
def BoardPos (b : Board) : Prop :=
  ∀ k q, SMap.find b k = some q → 0 < q

/-- Invariant (b) for all three boards of a deck. -/
def DeckBoardsPos (d : Deck) : Prop :=
  BoardPos d.mainBoard ∧ BoardPos d.sideBoard ∧ BoardPos d.commander

theorem boardPos_of_entries {b : Board} (h : ∀ p ∈ b, 0 < p.2) : BoardPos b :=
  fun _ _ hf => h _ (SMap.mem_of_find hf)

theorem addCardsStep_find_self (sb : Board) (k : String) (d : Int) :
    SMap.find (addCardsStep sb (k, d)) k =
      some (if Board.get sb k ≠ 0 then Board.get sb k + d else d) := by
  unfold addCardsStep
  by_cases h : Board.get sb k ≠ 0
  · simp [h, SMap.find_set_self]
  · simp [h, SMap.find_set_self]

theorem addCardsStep_find_ne (sb : Board) (p : String × Int) (j : String)
    (h : j ≠ p.1) : SMap.find (addCardsStep sb p) j = SMap.find sb j := by
  unfold addCardsStep
  by_cases hc : Board.get sb p.1 ≠ 0
  · rw [if_pos hc]
    exact SMap.find_set_ne _ _ _ _ h
  · rw [if_neg hc]
    exact SMap.find_set_ne _ _ _ _ h

theorem removeCardsStep_find_self (sb : Board) (k : String) (d : Int) :
    SMap.find (removeCardsStep sb (k, d)) k =
      if Board.get sb k = 0 ∨ Board.get sb k - d = 0 then none
      else some (Board.get sb k - d) := by
  unfold removeCardsStep
  by_cases hc : Board.get sb k = 0
  · simp [hc, SMap.find_del_self]
  · have hset : SMap.find (SMap.set sb k (Board.get sb k - d)) k =
        some (Board.get sb k - d) := SMap.find_set_self _ _ _
    have hget : Board.get (SMap.set sb k (Board.get sb k - d)) k =
        Board.get sb k - d := Board.get_some hset
    by_cases hz : Board.get sb k - d = 0
    · have hgz : Board.get (SMap.set sb k (0 : Int)) k = 0 :=
        Board.get_some (SMap.find_set_self sb k 0)
      simp [hc, hz, hgz, SMap.find_del_self]
    · simp [hc, hget, hz, hset]

theorem removeCardsStep_find_ne (sb : Board) (p : String × Int) (j : String)
    (h : j ≠ p.1) : SMap.find (removeCardsStep sb p) j = SMap.find sb j := by
  unfold removeCardsStep
  by_cases hc : Board.get sb p.1 = 0
  · simp [hc, SMap.find_del_ne _ _ _ h]
  · by_cases hz : Board.get (SMap.set sb p.1 (Board.get sb p.1 - p.2)) p.1 = 0
    · simp [hc, hz, SMap.find_del_ne _ _ _ h, SMap.find_set_ne _ _ _ _ h]
    · simp [hc, hz, SMap.find_set_ne _ _ _ _ h]

theorem foldl_addCardsStep_find_notmem (l : List (String × Int)) (sb : Board)
    (k : String) (h : k ∉ l.map Prod.fst) :
    SMap.find (l.foldl addCardsStep sb) k = SMap.find sb k := by
  induction l generalizing sb with
  | nil => rfl
  | cons p t ih =>
    have hk : k ∉ t.map Prod.fst := fun hm => h (by simp [hm])
    have hne : k ≠ p.1 := fun he => h (by simp [he])
    rw [List.foldl_cons, ih _ hk, addCardsStep_find_ne _ _ _ hne]

theorem foldl_removeCardsStep_find_notmem (l : List (String × Int)) (sb : Board)
    (k : String) (h : k ∉ l.map Prod.fst) :
    SMap.find (l.foldl removeCardsStep sb) k = SMap.find sb k := by
  induction l generalizing sb with
  | nil => rfl
  | cons p t ih =>
    have hk : k ∉ t.map Prod.fst := fun hm => h (by simp [hm])
    have hne : k ≠ p.1 := fun he => h (by simp [he])
    rw [List.foldl_cons, ih _ hk, removeCardsStep_find_ne _ _ _ hne]

theorem addCardsStep_pos {sb : Board} {p : String × Int}
    (hb : BoardPos sb) (hd : 0 < p.2) : BoardPos (addCardsStep sb p) := by
  intro k q hq
  rcases p with ⟨pk, pd⟩
  by_cases hk : k = pk
  · subst hk
    rw [addCardsStep_find_self] at hq
    by_cases hc : Board.get sb k ≠ 0
    · rcases hf : SMap.find sb k with _ | c
      · rw [Board.get_none hf] at hc; exact absurd rfl hc
      · have hcpos : 0 < c := hb _ _ hf
        rw [if_pos hc, Board.get_some hf] at hq
        have : q = c + pd := by exact (Option.some.injEq _ _).mp hq.symm
        omega
    · rw [if_neg hc] at hq
      have : q = pd := by exact (Option.some.injEq _ _).mp hq.symm
      omega
  · rw [addCardsStep_find_ne _ _ _ hk] at hq
    exact hb _ _ hq

theorem removeCardsStep_pos {sb : Board} {p : String × Int}
    (hb : BoardPos sb)
    (hbnd : ∀ q, SMap.find sb p.1 = some q → p.2 ≤ q) :
    BoardPos (removeCardsStep sb p) := by
  intro k q hq
  rcases p with ⟨pk, pd⟩
  by_cases hk : k = pk
  · subst hk
    rw [removeCardsStep_find_self] at hq
    by_cases hz : Board.get sb k = 0 ∨ Board.get sb k - pd = 0
    · rw [if_pos hz] at hq; cases hq
    · rw [if_neg hz] at hq
      push_neg at hz
      rcases hf : SMap.find sb k with _ | c
      · rw [Board.get_none hf] at hz; exact absurd rfl hz.1
      · have hle : pd ≤ c := hbnd _ hf
        rw [Board.get_some hf] at hq hz
        have : q = c - pd := by exact (Option.some.injEq _ _).mp hq.symm
        omega
  · rw [removeCardsStep_find_ne _ _ _ hk] at hq
    exact hb _ _ hq

theorem foldl_addCardsStep_pos {l : List (String × Int)} {sb : Board}
    (hb : BoardPos sb) (hl : ∀ p ∈ l, 0 < p.2) :
    BoardPos (l.foldl addCardsStep sb) := by
  induction l generalizing sb with
  | nil => exact hb
  | cons p t ih =>
    rw [List.foldl_cons]
    exact ih (addCardsStep_pos hb (hl p (by simp)))
      (fun q hq => hl q (by simp [hq]))

theorem foldl_removeCardsStep_pos {l : List (String × Int)} {sb : Board}
    (hb : BoardPos sb)
    (hl : ∀ p ∈ l, ∀ q, SMap.find sb p.1 = some q → p.2 ≤ q)
    (hnd : (l.map Prod.fst).Nodup) :
    BoardPos (l.foldl removeCardsStep sb) := by
  induction l generalizing sb with
  | nil => exact hb
  | cons p t ih =>
    rw [List.foldl_cons]
    rw [List.map_cons, List.nodup_cons] at hnd
    refine ih (removeCardsStep_pos hb (hl p (by simp))) ?_ hnd.2
    intro p' hp' q hq
    have hne : p'.1 ≠ p.1 := by
      intro he
      exact hnd.1 (by rw [← he]; exact List.mem_map_of_mem _ hp')
    rw [removeCardsStep_find_ne _ _ _ hne] at hq
    exact hl p' (by simp [hp']) _ hq

theorem Board.get_congr {b b' : Board} {k : String}
    (h : SMap.find b k = SMap.find b' k) : Board.get b k = Board.get b' k := by
  simp [Board.get, h]

/-- Core round-trip property of the merge/subtract loops: subtracting a
delta with distinct keys and positive quantities right after adding it
restores every binding of a board that satisfies invariant (b). -/
theorem roundtrip_board (sb : Board) (l : List (String × Int))
    (hb : BoardPos sb) (hl : ∀ p ∈ l, 0 < p.2)
    (hnd : (l.map Prod.fst).Nodup) (k : String) :
    SMap.find (l.foldl removeCardsStep (l.foldl addCardsStep sb)) k =
      SMap.find sb k := by
  by_cases hk : k ∈ l.map Prod.fst
  · rcases List.mem_map.mp hk with ⟨p, hpmem, hpk⟩
    rcases List.append_of_mem hpmem with ⟨l1, l2, rfl⟩
    rcases p with ⟨pk, d⟩
    simp only at hpk
    subst hpk
    have hd : 0 < d := hl (pk, d) (by simp)
    rw [List.map_append, List.map_cons] at hnd
    have h1 : pk ∉ l1.map Prod.fst := by
      intro hmem
      have hdisj := (List.nodup_append.mp hnd).2.2
      exact hdisj hmem (by simp)
    have h2 : pk ∉ l2.map Prod.fst := by
      have := (List.nodup_append.mp hnd).2.1
      exact (List.nodup_cons.mp this).1
    have hfA : SMap.find ((l1 ++ (pk, d) :: l2).foldl addCardsStep sb) pk =
        some (if Board.get sb pk ≠ 0 then Board.get sb pk + d else d) := by
      rw [List.foldl_append, List.foldl_cons,
        foldl_addCardsStep_find_notmem _ _ _ h2]
      have hg : Board.get (l1.foldl addCardsStep sb) pk = Board.get sb pk :=
        Board.get_congr (foldl_addCardsStep_find_notmem l1 sb pk h1)
      rw [addCardsStep_find_self, hg]
    rw [List.foldl_append, List.foldl_cons,
      foldl_removeCardsStep_find_notmem _ _ _ h2]
    have hgB1 : Board.get
        (l1.foldl removeCardsStep ((l1 ++ (pk, d) :: l2).foldl addCardsStep sb)) pk =
        Board.get ((l1 ++ (pk, d) :: l2).foldl addCardsStep sb) pk :=
      Board.get_congr (foldl_removeCardsStep_find_notmem l1 _ pk h1)
    rw [removeCardsStep_find_self, hgB1, Board.get_some hfA]
    rcases hf : SMap.find sb pk with _ | c
    · have h0 : Board.get sb pk = 0 := Board.get_none hf
      simp [h0]
    · have hcpos : 0 < c := hb _ _ hf
      have hc : Board.get sb pk = c := Board.get_some hf
      have hcne : c ≠ 0 := by omega
      have hcd : c + d ≠ 0 := by omega
      simp [hc, hcne, hcd]
  · rw [foldl_removeCardsStep_find_notmem _ _ _ hk,
      foldl_addCardsStep_find_notmem _ _ _ hk]

theorem setBoards_code (deck : Deck) (board : String) (sb : Board) :
    (setBoards deck board sb).code = deck.code := by
  unfold setBoards
  repeat' split
  all_goals rfl

theorem setBoards_meta (deck : Deck) (board : String) (sb : Board) :
    (setBoards deck board sb).mtgjsonApiMeta = deck.mtgjsonApiMeta := by
  unfold setBoards
  repeat' split
  all_goals rfl

theorem setBoards_contents (deck : Deck) (board : String) (sb : Board) :
    (setBoards deck board sb).contents = deck.contents := by
  unfold setBoards
  repeat' split
  all_goals rfl

theorem setBoards_eq_main (deck : Deck) (sb : Board) :
    setBoards deck BoardMainboard sb = { deck with mainBoard := sb } := by
  unfold setBoards
  rw [if_pos rfl, if_neg (by decide), if_neg (by decide)]

theorem setBoards_eq_side (deck : Deck) (sb : Board) :
    setBoards deck BoardSideboard sb = { deck with sideBoard := sb } := by
  unfold setBoards
  rw [if_neg (by decide), if_pos rfl, if_neg (by decide)]

theorem setBoards_eq_commander (deck : Deck) (sb : Board) :
    setBoards deck BoardCommander sb = { deck with commander := sb } := by
  unfold setBoards
  rw [if_pos rfl, if_neg (by decide), if_neg (by decide)]

theorem getDeckBoard_main (deck : Deck) :
    GetDeckBoard deck BoardMainboard = .ok deck.mainBoard := by
  unfold GetDeckBoard
  rw [if_pos rfl]

theorem getDeckBoard_side (deck : Deck) :
    GetDeckBoard deck BoardSideboard = .ok deck.sideBoard := by
  unfold GetDeckBoard
  rw [if_neg (by decide), if_pos rfl]

theorem getDeckBoard_commander (deck : Deck) :
    GetDeckBoard deck BoardCommander = .ok deck.commander := by
  unfold GetDeckBoard
  rw [if_neg (by decide), if_neg (by decide), if_pos rfl]

theorem addCards_deck_of_empty_code (db : DB) (deck : Deck) (board : String)
    (delta : List (String × Int)) (hcode : deck.code = "") :
    (AddCards db deck board delta).deck = deck := by
  unfold AddCards
  rw [if_pos hcode]

theorem removeCards_deck_of_empty_code (db : DB) (deck : Deck) (board : String)
    (delta : List (String × Int)) (hcode : deck.code = "") :
    (RemoveCards db deck board delta).deck = deck := by
  unfold RemoveCards
  rw [if_pos hcode]

theorem addCards_deck_of_bad_board (db : DB) (deck : Deck) (board : String)
    (delta : List (String × Int)) (hcode : ¬deck.code = "")
    (e : SdkError) (hgb : GetDeckBoard deck board = .error e) :
    (AddCards db deck board delta).deck = deck := by
  unfold AddCards
  rw [if_neg hcode, hgb]

theorem removeCards_deck_of_bad_board (db : DB) (deck : Deck) (board : String)
    (delta : List (String × Int)) (hcode : ¬deck.code = "")
    (e : SdkError) (hgb : GetDeckBoard deck board = .error e) :
    (RemoveCards db deck board delta).deck = deck := by
  unfold RemoveCards
  rw [if_neg hcode, hgb]

theorem addCards_deck_eq (db : DB) (deck : Deck) (board : String)
    (delta : List (String × Int)) (hcode : ¬deck.code = "") (sb : Board)
    (hgb : GetDeckBoard deck board = .ok sb) :
    (AddCards db deck board delta).deck =
      setBoards deck board (delta.foldl addCardsStep sb) := by
  unfold AddCards
  rw [if_neg hcode, hgb]

theorem removeCards_deck_eq (db : DB) (deck : Deck) (board : String)
    (delta : List (String × Int)) (hcode : ¬deck.code = "") (sb : Board)
    (hgb : GetDeckBoard deck board = .ok sb) :
    (RemoveCards db deck board delta).deck =
      setBoards deck board (delta.foldl removeCardsStep sb) := by
  unfold RemoveCards
  rw [if_neg hcode, hgb]

theorem getDeckBoard_cases (deck : Deck) (board : String) :
    board = BoardMainboard ∨ board = BoardSideboard ∨ board = BoardCommander ∨
      GetDeckBoard deck board = .error .errBoardNotExist := by
  by_cases h1 : board = BoardMainboard
  · exact Or.inl h1
  · by_cases h2 : board = BoardSideboard
    · exact Or.inr (Or.inl h2)
    · by_cases h3 : board = BoardCommander
      · exact Or.inr (Or.inr (Or.inl h3))
      · refine Or.inr (Or.inr (Or.inr ?_))
        unfold GetDeckBoard
        rw [if_neg h1, if_neg h2, if_neg h3]

/-- The per-id bound under which a subtraction can never drive a stored
quantity negative: each delta quantity is at most the stored quantity,
or the id is absent. -/
def deltaBounded (sb : Board) (delta : List (String × Int)) : Prop :=
  ∀ p ∈ delta, p.2 ≤ Board.get sb p.1 ∨ SMap.find sb p.1 = none

instance deltaBoundedDecidable (sb : Board) (delta : List (String × Int)) :
    Decidable (deltaBounded sb delta) := by
  unfold deltaBounded
  infer_instance

theorem deltaBounded_find {sb : Board} {delta : List (String × Int)}
    (h : deltaBounded sb delta) :
    ∀ p ∈ delta, ∀ q, SMap.find sb p.1 = some q → p.2 ≤ q := by
  intro p hp q hq
  rcases h p hp with hle | hnone
  · rwa [Board.get_some hq] at hle
  · rw [hnone] at hq
    cases hq

theorem foldl_removeCardsStep_find_none (l : List (String × Int)) (sb : Board)
    (id : String) (h : SMap.find sb id = none) :
    SMap.find (l.foldl removeCardsStep sb) id = none := by
  induction l generalizing sb with
  | nil => exact h
  | cons p t ih =>
    rcases p with ⟨pk, d⟩
    rw [List.foldl_cons]
    apply ih
    by_cases hk : id = pk
    · subst hk
      rw [removeCardsStep_find_self, if_pos (Or.inl (Board.get_none h))]
    · rw [removeCardsStep_find_ne _ _ _ hk]
      exact h

theorem removeCards_err (db : DB) (deck : Deck) (board : String)
    (delta : List (String × Int)) (hcode : ¬deck.code = "") (sb : Board)
    (hgb : GetDeckBoard deck board = .ok sb) :
    (RemoveCards db deck board delta).err = none := by
  unfold RemoveCards
  rw [if_neg hcode, hgb]
  rfl

/-- C1 (counterexample): on the deck whose mainboard holds two copies of
card `a`, removing five copies stores the quantity `-3` instead of
deleting the key, so a board map can hold a non-positive entry after
`RemoveCards` returns — the claim fails for this delta. -/
theorem C1_counterexample :
    SMap.find (RemoveCards ⟨[], [], []⟩
        { code := "D1", name := "N", releaseDate := "", mainBoard := [("a", 2)],
          sideBoard := [], commander := [], contents := none,
          mtgjsonApiMeta := none }
        BoardMainboard [("a", 5)]).deck.mainBoard "a" = some (-3) := by
  decide

/-- C1 (amended): after `AddCards` or `RemoveCards` returns, no key of
any of the deck's three board maps is mapped to a quantity `≤ 0`,
provided the boards satisfied that invariant beforehand, the delta map
has pairwise-distinct keys and strictly positive quantities, and — for
the subtraction — no delta quantity exceeds the quantity stored on the
target board.  (As stated, the claim fails: the code deletes a key only
when the subtraction lands exactly on zero and stores the negative
result of an over-subtraction, see the counterexample.) -/
theorem C1_board_invariant_amended
    (db : DB) (deck : Deck) (board : String) (delta : List (String × Int))
    (hmain : ∀ p ∈ deck.mainBoard, 0 < p.2)
    (hside : ∀ p ∈ deck.sideBoard, 0 < p.2)
    (hcmd : ∀ p ∈ deck.commander, 0 < p.2)
    (hdelta : ∀ p ∈ delta, 0 < p.2)
    (hnd : (delta.map Prod.fst).Nodup)
    (hbound : ∀ sb, GetDeckBoard deck board = Except.ok sb → deltaBounded sb delta) :
    DeckBoardsPos (AddCards db deck board delta).deck ∧
      DeckBoardsPos (RemoveCards db deck board delta).deck := by
  have hm := boardPos_of_entries hmain
  have hs := boardPos_of_entries hside
  have hc := boardPos_of_entries hcmd
  have hdp : DeckBoardsPos deck := ⟨hm, hs, hc⟩
  by_cases hcode : deck.code = ""
  · rw [addCards_deck_of_empty_code _ _ _ _ hcode,
      removeCards_deck_of_empty_code _ _ _ _ hcode]
    exact ⟨hdp, hdp⟩
  · rcases getDeckBoard_cases deck board with h1 | h2 | h3 | herr
    · subst h1
      rw [addCards_deck_eq _ _ _ _ hcode _ (getDeckBoard_main deck),
        removeCards_deck_eq _ _ _ _ hcode _ (getDeckBoard_main deck),
        setBoards_eq_main, setBoards_eq_main]
      exact ⟨⟨foldl_addCardsStep_pos hm hdelta, hs, hc⟩,
        ⟨foldl_removeCardsStep_pos hm
          (deltaBounded_find (hbound _ (getDeckBoard_main deck))) hnd, hs, hc⟩⟩
    · subst h2
      rw [addCards_deck_eq _ _ _ _ hcode _ (getDeckBoard_side deck),
        removeCards_deck_eq _ _ _ _ hcode _ (getDeckBoard_side deck),
        setBoards_eq_side, setBoards_eq_side]
      exact ⟨⟨hm, foldl_addCardsStep_pos hs hdelta, hc⟩,
        ⟨hm, foldl_removeCardsStep_pos hs
          (deltaBounded_find (hbound _ (getDeckBoard_side deck))) hnd, hc⟩⟩
    · subst h3
      rw [addCards_deck_eq _ _ _ _ hcode _ (getDeckBoard_commander deck),
        removeCards_deck_eq _ _ _ _ hcode _ (getDeckBoard_commander deck),
        setBoards_eq_commander, setBoards_eq_commander]
      exact ⟨⟨hm, hs, foldl_addCardsStep_pos hc hdelta⟩,
        ⟨hm, hs, foldl_removeCardsStep_pos hc
          (deltaBounded_find (hbound _ (getDeckBoard_commander deck))) hnd⟩⟩
    · rw [addCards_deck_of_bad_board _ _ _ _ hcode _ herr,
        removeCards_deck_of_bad_board _ _ _ _ hcode _ herr]
      exact ⟨hdp, hdp⟩

/-- C1 (witness): the amended invariant instantiated on a two-copy
mainboard with a one-copy delta. -/
theorem C1_witness :
    DeckBoardsPos (AddCards ⟨[], [], []⟩
        { code := "D1", name := "N", releaseDate := "", mainBoard := [("a", 2)],
          sideBoard := [], commander := [], contents := none,
          mtgjsonApiMeta := none }
        BoardMainboard [("a", 1)]).deck ∧
      DeckBoardsPos (RemoveCards ⟨[], [], []⟩
        { code := "D1", name := "N", releaseDate := "", mainBoard := [("a", 2)],
          sideBoard := [], commander := [], contents := none,
          mtgjsonApiMeta := none }
        BoardMainboard [("a", 1)]).deck :=
  C1_board_invariant_amended ⟨[], [], []⟩
    { code := "D1", name := "N", releaseDate := "", mainBoard := [("a", 2)],
      sideBoard := [], commander := [], contents := none, mtgjsonApiMeta := none }
    BoardMainboard [("a", 1)]
    (by decide) (by decide) (by decide) (by decide) (by decide)
    (by
      intro sb h
      rw [getDeckBoard_main] at h
      injection h with h
      subst h
      decide)

/-- C2 (counterexample): on a mainboard holding one copy of `a`, adding
the delta `{a: -1}` stores a zero entry, and the subsequent identical
removal skips the zero entry and deletes the key, so the round trip ends
with `a` absent instead of restoring its quantity 1 — the claim fails
for this delta. -/
theorem C2_counterexample :
    SMap.find (RemoveCards
        (AddCards ⟨[], [], []⟩
          { code := "D1", name := "N", releaseDate := "", mainBoard := [("a", 1)],
            sideBoard := [], commander := [], contents := none,
            mtgjsonApiMeta := none }
          BoardMainboard [("a", -1)]).db
        (AddCards ⟨[], [], []⟩
          { code := "D1", name := "N", releaseDate := "", mainBoard := [("a", 1)],
            sideBoard := [], commander := [], contents := none,
            mtgjsonApiMeta := none }
          BoardMainboard [("a", -1)]).deck
        BoardMainboard [("a", -1)]).deck.mainBoard "a" = none ∧
      SMap.find ({ code := "D1", name := "N", releaseDate := "",
                   mainBoard := [("a", 1)], sideBoard := [], commander := [],
                   contents := none, mtgjsonApiMeta := none } : Deck).mainBoard
        "a" = some 1 := by
  constructor
  · decide
  · decide

/-- C2 (amended): `RemoveCards(board, delta)` right after
`AddCards(board, delta)` with the identical delta restores every binding
of all three board quantity maps — including the absence of
zero-quantity entries — provided the boards satisfied invariant (b)
beforehand and the delta map has pairwise-distinct keys and strictly
positive quantities.  (As stated, for arbitrary deltas, the claim fails:
a non-positive delta quantity can leave a zero entry that the removal
then deletes, see the counterexample.) -/
theorem C2_roundtrip_amended
    (db : DB) (deck : Deck) (board : String) (delta : List (String × Int))
    (hmain : ∀ p ∈ deck.mainBoard, 0 < p.2)
    (hside : ∀ p ∈ deck.sideBoard, 0 < p.2)
    (hcmd : ∀ p ∈ deck.commander, 0 < p.2)
    (hdelta : ∀ p ∈ delta, 0 < p.2)
    (hnd : (delta.map Prod.fst).Nodup) :
    (∀ k, SMap.find (RemoveCards (AddCards db deck board delta).db
        (AddCards db deck board delta).deck board delta).deck.mainBoard k =
      SMap.find deck.mainBoard k) ∧
    (∀ k, SMap.find (RemoveCards (AddCards db deck board delta).db
        (AddCards db deck board delta).deck board delta).deck.sideBoard k =
      SMap.find deck.sideBoard k) ∧
    (∀ k, SMap.find (RemoveCards (AddCards db deck board delta).db
        (AddCards db deck board delta).deck board delta).deck.commander k =
      SMap.find deck.commander k) := by
  have hm := boardPos_of_entries hmain
  have hs := boardPos_of_entries hside
  have hc := boardPos_of_entries hcmd
  by_cases hcode : deck.code = ""
  · rw [addCards_deck_of_empty_code _ _ _ _ hcode,
      removeCards_deck_of_empty_code _ _ _ _ hcode]
    exact ⟨fun k => rfl, fun k => rfl, fun k => rfl⟩
  · rcases getDeckBoard_cases deck board with h1 | h2 | h3 | herr
    · subst h1
      rw [addCards_deck_eq _ _ _ _ hcode _ (getDeckBoard_main deck),
        setBoards_eq_main]
      have hcode2 : ¬(({ deck with
          mainBoard := delta.foldl addCardsStep deck.mainBoard } : Deck).code) = "" :=
        hcode
      rw [removeCards_deck_eq _ _ _ _ hcode2 _ (getDeckBoard_main _),
        setBoards_eq_main]
      exact ⟨fun k => roundtrip_board _ _ hm hdelta hnd k,
        fun k => rfl, fun k => rfl⟩
    · subst h2
      rw [addCards_deck_eq _ _ _ _ hcode _ (getDeckBoard_side deck),
        setBoards_eq_side]
      have hcode2 : ¬(({ deck with
          sideBoard := delta.foldl addCardsStep deck.sideBoard } : Deck).code) = "" :=
        hcode
      rw [removeCards_deck_eq _ _ _ _ hcode2 _ (getDeckBoard_side _),
        setBoards_eq_side]
      exact ⟨fun k => rfl,
        fun k => roundtrip_board _ _ hs hdelta hnd k, fun k => rfl⟩
    · subst h3
      rw [addCards_deck_eq _ _ _ _ hcode _ (getDeckBoard_commander deck),
        setBoards_eq_commander]
      have hcode2 : ¬(({ deck with
          commander := delta.foldl addCardsStep deck.commander } : Deck).code) = "" :=
        hcode
      rw [removeCards_deck_eq _ _ _ _ hcode2 _ (getDeckBoard_commander _),
        setBoards_eq_commander]
      exact ⟨fun k => rfl, fun k => rfl,
        fun k => roundtrip_board _ _ hc hdelta hnd k⟩
    · rw [addCards_deck_of_bad_board _ _ _ _ hcode _ herr,
        removeCards_deck_of_bad_board _ _ _ _ hcode _ herr]
      exact ⟨fun k => rfl, fun k => rfl, fun k => rfl⟩

/-- C2 (witness): the amended round trip instantiated on a one-card
mainboard with a two-entry delta over two distinct keys. -/
theorem C2_witness :
    (∀ k, SMap.find (RemoveCards
        (AddCards ⟨[], [], []⟩
          { code := "D1", name := "N", releaseDate := "", mainBoard := [("a", 3)],
            sideBoard := [], commander := [], contents := none,
            mtgjsonApiMeta := none } BoardMainboard [("a", 2), ("b", 1)]).db
        (AddCards ⟨[], [], []⟩
          { code := "D1", name := "N", releaseDate := "", mainBoard := [("a", 3)],
            sideBoard := [], commander := [], contents := none,
            mtgjsonApiMeta := none } BoardMainboard [("a", 2), ("b", 1)]).deck
        BoardMainboard [("a", 2), ("b", 1)]).deck.mainBoard k =
      SMap.find ({ code := "D1", name := "N", releaseDate := "",
                   mainBoard := [("a", 3)], sideBoard := [], commander := [],
                   contents := none, mtgjsonApiMeta := none } : Deck).mainBoard k) ∧
    (∀ k, SMap.find (RemoveCards
        (AddCards ⟨[], [], []⟩
          { code := "D1", name := "N", releaseDate := "", mainBoard := [("a", 3)],
            sideBoard := [], commander := [], contents := none,
            mtgjsonApiMeta := none } BoardMainboard [("a", 2), ("b", 1)]).db
        (AddCards ⟨[], [], []⟩
          { code := "D1", name := "N", releaseDate := "", mainBoard := [("a", 3)],
            sideBoard := [], commander := [], contents := none,
            mtgjsonApiMeta := none } BoardMainboard [("a", 2), ("b", 1)]).deck
        BoardMainboard [("a", 2), ("b", 1)]).deck.sideBoard k =
      SMap.find ({ code := "D1", name := "N", releaseDate := "",
                   mainBoard := [("a", 3)], sideBoard := [], commander := [],
                   contents := none, mtgjsonApiMeta := none } : Deck).sideBoard k) ∧
    (∀ k, SMap.find (RemoveCards
        (AddCards ⟨[], [], []⟩
          { code := "D1", name := "N", releaseDate := "", mainBoard := [("a", 3)],
            sideBoard := [], commander := [], contents := none,
            mtgjsonApiMeta := none } BoardMainboard [("a", 2), ("b", 1)]).db
        (AddCards ⟨[], [], []⟩
          { code := "D1", name := "N", releaseDate := "", mainBoard := [("a", 3)],
            sideBoard := [], commander := [], contents := none,
            mtgjsonApiMeta := none } BoardMainboard [("a", 2), ("b", 1)]).deck
        BoardMainboard [("a", 2), ("b", 1)]).deck.commander k =
      SMap.find ({ code := "D1", name := "N", releaseDate := "",
                   mainBoard := [("a", 3)], sideBoard := [], commander := [],
                   contents := none, mtgjsonApiMeta := none } : Deck).commander k) :=
  C2_roundtrip_amended ⟨[], [], []⟩
    { code := "D1", name := "N", releaseDate := "", mainBoard := [("a", 3)],
      sideBoard := [], commander := [], contents := none, mtgjsonApiMeta := none }
    BoardMainboard [("a", 2), ("b", 1)]
    (by decide) (by decide) (by decide) (by decide) (by decide)

/-- C10: removing a card id that is absent from the selected board
succeeds and leaves that board unchanged with respect to the id — the
subtract loop skips ids whose stored quantity is the zero value and the
zero-prune deletes nothing, so no entry is created and no error is
returned. -/
theorem C10_remove_absent_noop
    (db : DB) (deck : Deck) (board : String) (delta : List (String × Int))
    (id : String) (hcode : ¬deck.code = "") (sb : Board)
    (hgb : GetDeckBoard deck board = .ok sb)
    (habs : SMap.find sb id = none) :
    (RemoveCards db deck board delta).err = none ∧
      ∃ sb2, GetDeckBoard (RemoveCards db deck board delta).deck board = .ok sb2 ∧
        SMap.find sb2 id = none := by
  refine ⟨removeCards_err db deck board delta hcode sb hgb, ?_⟩
  rcases getDeckBoard_cases deck board with h1 | h2 | h3 | herr
  · subst h1
    rw [getDeckBoard_main] at hgb
    injection hgb with hgb
    subst hgb
    rw [removeCards_deck_eq _ _ _ _ hcode _ (getDeckBoard_main deck),
      setBoards_eq_main, getDeckBoard_main]
    exact ⟨_, rfl, foldl_removeCardsStep_find_none _ _ _ habs⟩
  · subst h2
    rw [getDeckBoard_side] at hgb
    injection hgb with hgb
    subst hgb
    rw [removeCards_deck_eq _ _ _ _ hcode _ (getDeckBoard_side deck),
      setBoards_eq_side, getDeckBoard_side]
    exact ⟨_, rfl, foldl_removeCardsStep_find_none _ _ _ habs⟩
  · subst h3
    rw [getDeckBoard_commander] at hgb
    injection hgb with hgb
    subst hgb
    rw [removeCards_deck_eq _ _ _ _ hcode _ (getDeckBoard_commander deck),
      setBoards_eq_commander, getDeckBoard_commander]
    exact ⟨_, rfl, foldl_removeCardsStep_find_none _ _ _ habs⟩
  · rw [herr] at hgb
    cases hgb

/-- C10 (witness): removing one copy of the absent id `b` from a
mainboard holding only `a` succeeds and creates no entry for `b`. -/
theorem C10_witness :
    (RemoveCards ⟨[], [], []⟩
        { code := "D1", name := "N", releaseDate := "", mainBoard := [("a", 2)],
          sideBoard := [], commander := [], contents := none,
          mtgjsonApiMeta := none } BoardMainboard [("b", 1)]).err = none ∧
      ∃ sb2, GetDeckBoard (RemoveCards ⟨[], [], []⟩
          { code := "D1", name := "N", releaseDate := "", mainBoard := [("a", 2)],
            sideBoard := [], commander := [], contents := none,
            mtgjsonApiMeta := none } BoardMainboard [("b", 1)]).deck
          BoardMainboard = .ok sb2 ∧
        SMap.find sb2 "b" = none :=
  C10_remove_absent_noop ⟨[], [], []⟩
    { code := "D1", name := "N", releaseDate := "", mainBoard := [("a", 2)],
      sideBoard := [], commander := [], contents := none, mtgjsonApiMeta := none }
    BoardMainboard [("b", 1)] "b" (by decide) [("a", 2)]
    (by rw [getDeckBoard_main]) (by decide)

theorem SMap.key_mem_of_find {α : Type} {m : SMap α} {k : String} {v : α}
    (h : m.find k = some v) : k ∈ m.keys :=
  List.mem_map_of_mem _ (SMap.mem_of_find h)

/-- The action of one hydration iteration on a single board, keyed by the
fetched card (`cardBoardStep qmap out c` is the board component of
`deckHydrateStep`). -/
def cardBoardStep (qmap : Board) (out : SMap DeckContentEntry) (c : CardSet) :
    SMap DeckContentEntry :=
  match c.identifiers with
  | none => out
  | some idents => boardHydrateStep qmap out idents.mtgjsonV4Id c

theorem hydrate_fold_main (cont : DeckContentIds) (acc : DeckContents)
    (l : List CardSet) :
    (l.foldl (deckHydrateStep cont) acc).mainBoard =
      l.foldl (cardBoardStep cont.mainBoard) acc.mainBoard := by
  induction l generalizing acc with
  | nil => rfl
  | cons c t ih =>
    rw [List.foldl_cons, List.foldl_cons, ih]
    have h : (deckHydrateStep cont acc c).mainBoard =
        cardBoardStep cont.mainBoard acc.mainBoard c := by
      unfold deckHydrateStep cardBoardStep
      cases c.identifiers <;> rfl
    rw [h]

theorem hydrate_fold_side (cont : DeckContentIds) (acc : DeckContents)
    (l : List CardSet) :
    (l.foldl (deckHydrateStep cont) acc).sideBoard =
      l.foldl (cardBoardStep cont.sideBoard) acc.sideBoard := by
  induction l generalizing acc with
  | nil => rfl
  | cons c t ih =>
    rw [List.foldl_cons, List.foldl_cons, ih]
    have h : (deckHydrateStep cont acc c).sideBoard =
        cardBoardStep cont.sideBoard acc.sideBoard c := by
      unfold deckHydrateStep cardBoardStep
      cases c.identifiers <;> rfl
    rw [h]

theorem hydrate_fold_commander (cont : DeckContentIds) (acc : DeckContents)
    (l : List CardSet) :
    (l.foldl (deckHydrateStep cont) acc).commander =
      l.foldl (cardBoardStep cont.commander) acc.commander := by
  induction l generalizing acc with
  | nil => rfl
  | cons c t ih =>
    rw [List.foldl_cons, List.foldl_cons, ih]
    have h : (deckHydrateStep cont acc c).commander =
        cardBoardStep cont.commander acc.commander c := by
      unfold deckHydrateStep cardBoardStep
      cases c.identifiers <;> rfl
    rw [h]

theorem cardBoardStep_find (qmap : Board) (acc : SMap DeckContentEntry)
    (c : CardSet) (j : String) :
    SMap.find (cardBoardStep qmap acc c) j =
      if c.cardId = some j ∧ Board.get qmap j ≠ 0 then
        some ⟨Board.get qmap j, c⟩
      else SMap.find acc j := by
  rcases hci : c.identifiers with _ | idents
  · have hid : c.cardId = none := by
      rw [CardSet.cardId, hci]
      rfl
    simp [cardBoardStep, hci, hid]
  · have hid : c.cardId = some idents.mtgjsonV4Id := by
      rw [CardSet.cardId, hci]
      rfl
    by_cases hk : idents.mtgjsonV4Id = j
    · subst hk
      by_cases hz : Board.get qmap idents.mtgjsonV4Id ≠ 0
      · simp only [cardBoardStep, hci, boardHydrateStep]
        rw [if_pos hz, SMap.find_set_self, if_pos ⟨hid, hz⟩]
      · simp only [cardBoardStep, hci, boardHydrateStep]
        rw [if_neg hz, if_neg (fun h => hz h.2)]
    · have hne : ¬(c.cardId = some j ∧ Board.get qmap j ≠ 0) := by
        intro h
        rw [hid] at h
        exact hk (by simpa using h.1)
      simp only [cardBoardStep, hci, boardHydrateStep]
      by_cases hz : Board.get qmap idents.mtgjsonV4Id ≠ 0
      · rw [if_pos hz, SMap.find_set_ne _ _ _ _ (Ne.symm hk), if_neg hne]
      · rw [if_neg hz, if_neg hne]

theorem cardBoardStep_find_none (qmap : Board) (id : String)
    (h : SMap.find qmap id = none) (l : List CardSet) (acc : SMap DeckContentEntry)
    (hacc : SMap.find acc id = none) :
    SMap.find (l.foldl (cardBoardStep qmap) acc) id = none := by
  induction l generalizing acc with
  | nil => exact hacc
  | cons c t ih =>
    rw [List.foldl_cons]
    apply ih
    rw [cardBoardStep_find]
    by_cases hcond : c.cardId = some id ∧ Board.get qmap id ≠ 0
    · exact absurd (Board.get_none h) hcond.2
    · rw [if_neg hcond]
      exact hacc

theorem cardBoardStep_preserve (qmap : Board) (id : String) (q : Int)
    (hq : SMap.find qmap id = some q) (l : List CardSet)
    (acc : SMap DeckContentEntry)
    (hacc : (SMap.find acc id).map DeckContentEntry.quantity = some q) :
    (SMap.find (l.foldl (cardBoardStep qmap) acc) id).map
      DeckContentEntry.quantity = some q := by
  induction l generalizing acc with
  | nil => exact hacc
  | cons c t ih =>
    rw [List.foldl_cons]
    apply ih
    rw [cardBoardStep_find]
    by_cases hcond : c.cardId = some id ∧ Board.get qmap id ≠ 0
    · rw [if_pos hcond]
      simp [Board.get_some hq]
    · rw [if_neg hcond]
      exact hacc

theorem cardBoardStep_hit (qmap : Board) (id : String) (q : Int)
    (hq : SMap.find qmap id = some q) (hq0 : q ≠ 0) (c : CardSet)
    (hc : c.cardId = some id) (acc : SMap DeckContentEntry) :
    (SMap.find (cardBoardStep qmap acc c) id).map DeckContentEntry.quantity =
      some q := by
  rw [cardBoardStep_find,
    if_pos ⟨hc, by rw [Board.get_some hq]; exact hq0⟩]
  simp [Board.get_some hq]

/-- Hydration of one board is complete and quantity-preserving when every
referenced id resolves to a card of the fetched list and the board holds
no zero-quantity entry. -/
theorem hydrateBoard_correct (qmap : Board) (l : List CardSet)
    (hnz : ∀ p ∈ qmap, p.2 ≠ 0)
    (hres : ∀ id q, SMap.find qmap id = some q → ∃ c ∈ l, c.cardId = some id) :
    ∀ id, (SMap.find (l.foldl (cardBoardStep qmap) []) id).map
      DeckContentEntry.quantity = SMap.find qmap id := by
  intro id
  rcases hf : SMap.find qmap id with _ | q
  · rw [cardBoardStep_find_none qmap id hf l [] rfl]
    rfl
  · have hq0 : q ≠ 0 := hnz _ (SMap.mem_of_find hf)
    rcases hres id q hf with ⟨c, hcl, hcid⟩
    rcases List.append_of_mem hcl with ⟨l1, l2, rfl⟩
    rw [List.foldl_append, List.foldl_cons]
    exact cardBoardStep_preserve qmap id q hf l2 _
      (cardBoardStep_hit qmap id q hf hq0 c hcid _)

theorem cardBoardStep_no_id (qmap : Board) (id0 : String) (l : List CardSet)
    (hl : ∀ c ∈ l, c.cardId ≠ some id0) (acc : SMap DeckContentEntry)
    (hacc : SMap.find acc id0 = none) :
    SMap.find (l.foldl (cardBoardStep qmap) acc) id0 = none := by
  induction l generalizing acc with
  | nil => exact hacc
  | cons c t ih =>
    rw [List.foldl_cons]
    refine ih (fun x hx => hl x (by simp [hx])) _ ?_
    rw [cardBoardStep_find, if_neg (fun h => hl c (by simp) h.1)]
    exact hacc

theorem resolvedCards_of_mem (db : DB) (ids : List String) (id : String)
    (hid : id ∈ ids) (c : CardSet) (hcdb : c ∈ db.cards)
    (hcid : c.cardId = some id) : c ∈ resolvedCards db ids := by
  unfold resolvedCards
  refine List.mem_filter.mpr ⟨hcdb, ?_⟩
  rw [hcid]
  simpa using hid

theorem mem_allCardIds_main {cont : DeckContentIds} {id : String} {q : Int}
    (h : SMap.find cont.mainBoard id = some q) : id ∈ AllCardIds cont := by
  unfold AllCardIds
  exact List.mem_append.mpr (Or.inl
    (List.mem_append.mpr (Or.inl (SMap.key_mem_of_find h))))

theorem mem_allCardIds_side {cont : DeckContentIds} {id : String} {q : Int}
    (h : SMap.find cont.sideBoard id = some q) : id ∈ AllCardIds cont := by
  unfold AllCardIds
  exact List.mem_append.mpr (Or.inl
    (List.mem_append.mpr (Or.inr (SMap.key_mem_of_find h))))

theorem mem_allCardIds_commander {cont : DeckContentIds} {id : String} {q : Int}
    (h : SMap.find cont.commander id = some q) : id ∈ AllCardIds cont := by
  unfold AllCardIds
  exact List.mem_append.mpr (Or.inr (SMap.key_mem_of_find h))

theorem getDeckContents_ok (db : DB) (deck : Deck) (cont : DeckContentIds)
    (m : MTGJSONAPIMeta) (hc : deck.contents = some cont)
    (hm : deck.mtgjsonApiMeta = some m) (hcode : deck.code ≠ "")
    (howner : m.owner ≠ "") :
    GetDeckContents db deck =
      (.ok ((resolvedCards db (AllCardIds cont)).foldl
          (deckHydrateStep cont) ⟨[], [], []⟩),
       [.findMultiple "card" "identifiers.mtgjsonV4Id" (AllCardIds cont)]) := by
  unfold GetDeckContents
  simp only [hc, hm]
  rw [if_neg (by simp [hcode, howner])]
  rfl

/-- C3 (counterexample): a deck whose mainboard quantity map stores the
entry `a ↦ 0` while card `a` is present in the card collection hydrates
to an empty output map: the zero-quantity id is referenced and resolves,
yet gets no output entry, so the output does not have one entry per id
of the quantity map. -/
theorem C3_counterexample :
    (GetDeckContents ⟨[⟨"CardA", some ⟨"a"⟩, none⟩], [], []⟩
        { code := "D1", name := "N", releaseDate := "", mainBoard := [],
          sideBoard := [], commander := [], contents := some ⟨[("a", 0)], [], []⟩,
          mtgjsonApiMeta := some ⟨"system", "Deck", "", "t", "t"⟩ }).1 =
      Except.ok (⟨[], [], []⟩ : DeckContents) ∧
      SMap.find ([("a", 0)] : Board) "a" = some 0 := by
  constructor
  · rfl
  · decide

/-- C3 (amended): for a valid deck (non-nil contents, non-empty code and
owner) whose board quantity maps hold no zero-quantity entries and whose
every referenced card id resolves in the card collection, hydration
succeeds and each board's output map has exactly one entry per id of
that board's quantity map, with the entry's quantity equal to the stored
quantity.  (As stated the claim fails: an id stored with quantity zero
resolves but is skipped by the `quantity != 0` guard, see the
counterexample.) -/
theorem C3_hydration_complete_amended
    (db : DB) (deck : Deck) (cont : DeckContentIds) (m : MTGJSONAPIMeta)
    (hc : deck.contents = some cont) (hm : deck.mtgjsonApiMeta = some m)
    (hcode : deck.code ≠ "") (howner : m.owner ≠ "")
    (hnz1 : ∀ p ∈ cont.mainBoard, p.2 ≠ 0)
    (hnz2 : ∀ p ∈ cont.sideBoard, p.2 ≠ 0)
    (hnz3 : ∀ p ∈ cont.commander, p.2 ≠ 0)
    (hres : ∀ id ∈ AllCardIds cont, ∃ c ∈ db.cards, c.cardId = some id) :
    ∃ out, (GetDeckContents db deck).1 = .ok out ∧
      (∀ id, (SMap.find out.mainBoard id).map DeckContentEntry.quantity =
        SMap.find cont.mainBoard id) ∧
      (∀ id, (SMap.find out.sideBoard id).map DeckContentEntry.quantity =
        SMap.find cont.sideBoard id) ∧
      (∀ id, (SMap.find out.commander id).map DeckContentEntry.quantity =
        SMap.find cont.commander id) := by
  rw [getDeckContents_ok db deck cont m hc hm hcode howner]
  refine ⟨_, rfl, ?_, ?_, ?_⟩
  · intro id
    rw [hydrate_fold_main]
    refine hydrateBoard_correct _ _ hnz1 ?_ id
    intro id' q hfq
    rcases hres id' (mem_allCardIds_main hfq) with ⟨c, hcdb, hcid⟩
    exact ⟨c, resolvedCards_of_mem db _ id' (mem_allCardIds_main hfq) c hcdb hcid, hcid⟩
  · intro id
    rw [hydrate_fold_side]
    refine hydrateBoard_correct _ _ hnz2 ?_ id
    intro id' q hfq
    rcases hres id' (mem_allCardIds_side hfq) with ⟨c, hcdb, hcid⟩
    exact ⟨c, resolvedCards_of_mem db _ id' (mem_allCardIds_side hfq) c hcdb hcid, hcid⟩
  · intro id
    rw [hydrate_fold_commander]
    refine hydrateBoard_correct _ _ hnz3 ?_ id
    intro id' q hfq
    rcases hres id' (mem_allCardIds_commander hfq) with ⟨c, hcdb, hcid⟩
    exact ⟨c, resolvedCards_of_mem db _ id' (mem_allCardIds_commander hfq) c hcdb hcid,
      hcid⟩

/-- C3 (witness): the amended hydration completeness on a deck holding
two copies of a resolvable card `a` on the mainboard. -/
theorem C3_witness :
    ∃ out, (GetDeckContents ⟨[⟨"CardA", some ⟨"a"⟩, none⟩], [], []⟩
        { code := "D1", name := "N", releaseDate := "", mainBoard := [],
          sideBoard := [], commander := [], contents := some ⟨[("a", 2)], [], []⟩,
          mtgjsonApiMeta := some ⟨"system", "Deck", "", "t", "t"⟩ }).1 = .ok out ∧
      (∀ id, (SMap.find out.mainBoard id).map DeckContentEntry.quantity =
        SMap.find (⟨[("a", 2)], [], []⟩ : DeckContentIds).mainBoard id) ∧
      (∀ id, (SMap.find out.sideBoard id).map DeckContentEntry.quantity =
        SMap.find (⟨[("a", 2)], [], []⟩ : DeckContentIds).sideBoard id) ∧
      (∀ id, (SMap.find out.commander id).map DeckContentEntry.quantity =
        SMap.find (⟨[("a", 2)], [], []⟩ : DeckContentIds).commander id) :=
  C3_hydration_complete_amended ⟨[⟨"CardA", some ⟨"a"⟩, none⟩], [], []⟩
    { code := "D1", name := "N", releaseDate := "", mainBoard := [],
      sideBoard := [], commander := [], contents := some ⟨[("a", 2)], [], []⟩,
      mtgjsonApiMeta := some ⟨"system", "Deck", "", "t", "t"⟩ }
    ⟨[("a", 2)], [], []⟩ ⟨"system", "Deck", "", "t", "t"⟩
    rfl rfl (by decide) (by decide) (by decide) (by decide) (by decide) (by decide)

/-- C4: on a valid deck with a referenced card id that no card of the
collection resolves, hydration does not fail: it returns an output that
omits the entry for the unresolved id on every board, and it issues only
the single batched read — no write touches the persisted quantity maps,
which still reference the unresolved id (the function neither mutates
the deck nor issues a replace). -/
theorem C4_hydration_gap
    (db : DB) (deck : Deck) (cont : DeckContentIds) (m : MTGJSONAPIMeta)
    (id0 : String)
    (hc : deck.contents = some cont) (hm : deck.mtgjsonApiMeta = some m)
    (hcode : deck.code ≠ "") (howner : m.owner ≠ "")
    (hid : id0 ∈ AllCardIds cont)
    (hunres : ∀ c ∈ db.cards, c.cardId ≠ some id0) :
    ∃ out, GetDeckContents db deck =
        (.ok out,
         [DbCall.findMultiple "card" "identifiers.mtgjsonV4Id" (AllCardIds cont)]) ∧
      SMap.find out.mainBoard id0 = none ∧
      SMap.find out.sideBoard id0 = none ∧
      SMap.find out.commander id0 = none := by
  rw [getDeckContents_ok db deck cont m hc hm hcode howner]
  have hfilter : ∀ c ∈ resolvedCards db (AllCardIds cont), c.cardId ≠ some id0 :=
    fun c hcl => hunres c (List.mem_filter.mp hcl).1
  refine ⟨_, rfl, ?_, ?_, ?_⟩
  · rw [hydrate_fold_main]
    exact cardBoardStep_no_id _ _ _ hfilter _ rfl
  · rw [hydrate_fold_side]
    exact cardBoardStep_no_id _ _ _ hfilter _ rfl
  · rw [hydrate_fold_commander]
    exact cardBoardStep_no_id _ _ _ hfilter _ rfl

/-- C4 (witness): hydrating a deck that references the unresolvable id
`b` (no card of the collection carries it) succeeds and omits `b`. -/
theorem C4_witness :
    ∃ out, GetDeckContents ⟨[⟨"CardA", some ⟨"a"⟩, none⟩], [], []⟩
        { code := "D1", name := "N", releaseDate := "", mainBoard := [],
          sideBoard := [], commander := [],
          contents := some ⟨[("a", 2), ("b", 1)], [], []⟩,
          mtgjsonApiMeta := some ⟨"system", "Deck", "", "t", "t"⟩ } =
        (.ok out,
         [DbCall.findMultiple "card" "identifiers.mtgjsonV4Id"
           (AllCardIds ⟨[("a", 2), ("b", 1)], [], []⟩)]) ∧
      SMap.find out.mainBoard "b" = none ∧
      SMap.find out.sideBoard "b" = none ∧
      SMap.find out.commander "b" = none :=
  C4_hydration_gap ⟨[⟨"CardA", some ⟨"a"⟩, none⟩], [], []⟩
    { code := "D1", name := "N", releaseDate := "", mainBoard := [],
      sideBoard := [], commander := [],
      contents := some ⟨[("a", 2), ("b", 1)], [], []⟩,
      mtgjsonApiMeta := some ⟨"system", "Deck", "", "t", "t"⟩ }
    ⟨[("a", 2), ("b", 1)], [], []⟩ ⟨"system", "Deck", "", "t", "t"⟩ "b"
    rfl rfl (by decide) (by decide) (by decide) (by decide)

theorem hexRun_eq_some {n : Nat} {cs rest : List Char} :
    hexRun n cs = some rest ↔
      ∃ g, cs = g ++ rest ∧ g.length = n ∧ ∀ c ∈ g, isHexLower c = true := by
  induction n generalizing cs with
  | zero =>
    constructor
    · intro h
      have hcs : cs = rest := by simpa [hexRun] using h
      exact ⟨[], by simp [hcs], rfl, by simp⟩
    · rintro ⟨g, hcs, hlen, _⟩
      have hg : g = [] := List.length_eq_zero.mp hlen
      subst hg
      simpa [hexRun] using hcs
  | succ n ih =>
    cases cs with
    | nil =>
      constructor
      · intro h
        cases h
      · rintro ⟨g, hcs, hlen, _⟩
        rcases List.append_eq_nil.mp hcs.symm with ⟨hg, -⟩
        rw [hg] at hlen
        cases hlen
    | cons c t =>
      by_cases hhex : isHexLower c = true
      · rw [show hexRun (n + 1) (c :: t) = hexRun n t by simp [hexRun, hhex]]
        rw [ih]
        constructor
        · rintro ⟨g, ht, hlen, hall⟩
          refine ⟨c :: g, by simp [ht], by simp [hlen], ?_⟩
          intro x hx
          rcases List.mem_cons.mp hx with hx | hx
          · rwa [hx]
          · exact hall x hx
        · rintro ⟨g, hct, hlen, hall⟩
          cases g with
          | nil => cases hlen
          | cons a g' =>
            have ha : a = c ∧ t = g' ++ rest := by
              have := hct
              rw [List.cons_append] at this
              exact ⟨(List.cons.injEq _ _ _ _ ▸ this).1.symm,
                (List.cons.injEq _ _ _ _ ▸ this).2⟩
            exact ⟨g', ha.2, by simpa using hlen,
              fun x hx => hall x (List.mem_cons_of_mem _ hx)⟩
      · rw [show hexRun (n + 1) (c :: t) = none by simp [hexRun, hhex]]
        constructor
        · intro h
          cases h
        · rintro ⟨g, hct, hlen, hall⟩
          cases g with
          | nil => cases hlen
          | cons a g' =>
            have ha : a = c := by
              have := hct
              rw [List.cons_append] at this
              exact ((List.cons.injEq _ _ _ _ ▸ this).1).symm
            exact absurd (ha ▸ hall a (by simp)) hhex

theorem litChar_eq_some {ch : Char} {cs rest : List Char} :
    litChar ch cs = some rest ↔ cs = ch :: rest := by
  cases cs with
  | nil => simp [litChar]
  | cons c t =>
    by_cases h : c = ch
    · simp [litChar, h]
    · simp [litChar, h]

theorem variantNibble_eq_some {cs rest : List Char} :
    variantNibble cs = some rest ↔
      ∃ c, cs = c :: rest ∧ (c = '8' ∨ c = '9' ∨ c = 'a' ∨ c = 'b') := by
  cases cs with
  | nil => simp [variantNibble]
  | cons c t =>
    by_cases h : c = '8' ∨ c = '9' ∨ c = 'a' ∨ c = 'b'
    · rw [show variantNibble (c :: t) = some t by simp [variantNibble, h]]
      constructor
      · intro he
        have ht : t = rest := by simpa using he
        exact ⟨c, by rw [ht], h⟩
      · rintro ⟨c', he, -⟩
        have := (List.cons.injEq _ _ _ _ ▸ he).2
        rw [this]
    · rw [show variantNibble (c :: t) = none by simp [variantNibble, h]]
      constructor
      · intro he
        cases he
      · rintro ⟨c', he, hp⟩
        have hc : c = c' := (List.cons.injEq _ _ _ _ ▸ he).1
        exact absurd (hc ▸ hp) h

/-- The 8-4-4-4-12 hex-group shape with version nibble `5` and variant
nibble in `{8,9,a,b}`, stated the way the specification reads: five
dash-separated groups of fixed lengths, all characters lowercase hex,
with constraints on the leading character of the third and fourth
groups. -/
def UUIDSpec (s : String) : Prop :=
  ∃ g1 g2 g3 g4 g5 : List Char,
    s.data = g1 ++ '-' :: (g2 ++ '-' :: (g3 ++ '-' :: (g4 ++ '-' :: g5))) ∧
    g1.length = 8 ∧ g2.length = 4 ∧ g3.length = 4 ∧ g4.length = 4 ∧
    g5.length = 12 ∧
    (∀ c ∈ g1, isHexLower c = true) ∧ (∀ c ∈ g2, isHexLower c = true) ∧
    (∀ c ∈ g3, isHexLower c = true) ∧ (∀ c ∈ g4, isHexLower c = true) ∧
    (∀ c ∈ g5, isHexLower c = true) ∧
    g3.head? = some '5' ∧
    (g4.head? = some '8' ∨ g4.head? = some '9' ∨ g4.head? = some 'a' ∨
      g4.head? = some 'b')

/-- C9: for every string `s`, `ValidateUUID s` returns true exactly when
`s` matches the fixed 8-4-4-4-12 lowercase-hex group pattern whose
version nibble is `5` and whose variant nibble is one of `8`, `9`, `a`,
`b`; the function is total and has no other failure mode. -/
theorem C9_validate_uuid (s : String) : ValidateUUID s = true ↔ UUIDSpec s := by
  have hval : ValidateUUID s = true ↔ matchUUIDPattern s.data = some [] := by
    simp [ValidateUUID]
  rw [hval]
  constructor
  · intro h
    unfold matchUUIDPattern at h
    rcases Option.bind_eq_some.mp h with ⟨r1, h1, h⟩
    rcases Option.bind_eq_some.mp h with ⟨r2, h2, h⟩
    rcases Option.bind_eq_some.mp h with ⟨r3, h3, h⟩
    rcases Option.bind_eq_some.mp h with ⟨r4, h4, h⟩
    rcases Option.bind_eq_some.mp h with ⟨r5, h5, h⟩
    rcases Option.bind_eq_some.mp h with ⟨r6, h6, h⟩
    rcases Option.bind_eq_some.mp h with ⟨r7, h7, h⟩
    rcases Option.bind_eq_some.mp h with ⟨r8, h8, h⟩
    rcases Option.bind_eq_some.mp h with ⟨r9, h9, h⟩
    rcases Option.bind_eq_some.mp h with ⟨r10, h10, h11⟩
    rcases hexRun_eq_some.mp h1 with ⟨g1, hs1, hl1, hx1⟩
    rw [litChar_eq_some] at h2
    rcases hexRun_eq_some.mp h3 with ⟨g2, hs3, hl3, hx3⟩
    rw [litChar_eq_some] at h4
    rw [litChar_eq_some] at h5
    rcases hexRun_eq_some.mp h6 with ⟨gB, hs6, hl6, hx6⟩
    rw [litChar_eq_some] at h7
    rcases variantNibble_eq_some.mp h8 with ⟨v, hs8, hvv⟩
    rcases hexRun_eq_some.mp h9 with ⟨gC, hs9, hl9, hx9⟩
    rw [litChar_eq_some] at h10
    rcases hexRun_eq_some.mp h11 with ⟨gD, hs11, hl11, hx11⟩
    refine ⟨g1, g2, '5' :: gB, v :: gC, gD, ?_, hl1, hl3, by simp [hl6],
      by simp [hl9], hl11, hx1, hx3, ?_, ?_, hx11, rfl, ?_⟩
    · rw [hs1, h2, hs3, h4, h5, hs6, h7, hs8, hs9, h10, hs11]
      simp
    · intro c hc
      rcases List.mem_cons.mp hc with hc | hc
      · rw [hc]
        decide
      · exact hx6 c hc
    · intro c hc
      rcases List.mem_cons.mp hc with hc | hc
      · subst hc
        rcases hvv with hv | hv | hv | hv <;> rw [hv] <;> decide
      · exact hx9 c hc
    · rcases hvv with hv | hv | hv | hv
      · exact Or.inl (by rw [hv]; rfl)
      · exact Or.inr (Or.inl (by rw [hv]; rfl))
      · exact Or.inr (Or.inr (Or.inl (by rw [hv]; rfl)))
      · exact Or.inr (Or.inr (Or.inr (by rw [hv]; rfl)))
  · rintro ⟨g1, g2, g3, g4, g5, hs, hl1, hl2, hl3, hl4, hl5, hx1, hx2, hx3, hx4,
      hx5, hhd, hvar⟩
    cases g3 with
    | nil => cases hl3
    | cons c3 g3' =>
      cases g4 with
      | nil => cases hl4
      | cons c4 g4' =>
        have hc3 : c3 = '5' := by simpa using hhd
        subst hc3
        have hv4 : c4 = '8' ∨ c4 = '9' ∨ c4 = 'a' ∨ c4 = 'b' := by
          rcases hvar with h | h | h | h
          · exact Or.inl (by simpa using h)
          · exact Or.inr (Or.inl (by simpa using h))
          · exact Or.inr (Or.inr (Or.inl (by simpa using h)))
          · exact Or.inr (Or.inr (Or.inr (by simpa using h)))
        rw [hs]
        unfold matchUUIDPattern
        refine Option.bind_eq_some.mpr
          ⟨_, hexRun_eq_some.mpr ⟨g1, rfl, hl1, hx1⟩, ?_⟩
        refine Option.bind_eq_some.mpr ⟨_, litChar_eq_some.mpr rfl, ?_⟩
        refine Option.bind_eq_some.mpr
          ⟨_, hexRun_eq_some.mpr ⟨g2, rfl, hl2, hx2⟩, ?_⟩
        refine Option.bind_eq_some.mpr ⟨_, litChar_eq_some.mpr rfl, ?_⟩
        refine Option.bind_eq_some.mpr ⟨_, litChar_eq_some.mpr rfl, ?_⟩
        refine Option.bind_eq_some.mpr
          ⟨_, hexRun_eq_some.mpr ⟨g3', rfl, by simpa using hl3,
            fun c hc => hx3 c (List.mem_cons_of_mem _ hc)⟩, ?_⟩
        refine Option.bind_eq_some.mpr ⟨_, litChar_eq_some.mpr rfl, ?_⟩
        refine Option.bind_eq_some.mpr
          ⟨_, variantNibble_eq_some.mpr ⟨c4, rfl, hv4⟩, ?_⟩
        refine Option.bind_eq_some.mpr
          ⟨_, hexRun_eq_some.mpr ⟨g4', rfl, by simpa using hl4,
            fun c hc => hx4 c (List.mem_cons_of_mem _ hc)⟩, ?_⟩
        refine Option.bind_eq_some.mpr ⟨_, litChar_eq_some.mpr rfl, ?_⟩
        exact hexRun_eq_some.mpr ⟨g5, by simp, hl5, hx5⟩

/-- C5: evaluation at the failing input.  In the earlier GetCard revision
(src/card/card.go lines 107-127) the non-empty owner `user@example.com`
is dropped from the filter — its owner branch performs a dead store
(`owner = "system"`) instead of narrowing the query — so the filter sent
to Find is the bare key equality, while the sibling operations (the
final GetCard/DeleteCard revision and deck.GetDeck/DeleteDeck) all build
the key-and-owner conjunction for a non-empty owner and the bare key
equality for an empty one. -/
theorem C5_legacy_getcard_drops_owner :
    cardKeyQueryLegacy "a1b2c3d4-e5f6-5789-9abc-def012345678" "user@example.com" =
      QueryFilter.byKey "identifiers.mtgjsonV4Id"
        "a1b2c3d4-e5f6-5789-9abc-def012345678" ∧
    cardKeyQuery "a1b2c3d4-e5f6-5789-9abc-def012345678" "user@example.com" =
      QueryFilter.byKeyOwner "identifiers.mtgjsonV4Id"
        "a1b2c3d4-e5f6-5789-9abc-def012345678" "user@example.com" ∧
    cardKeyQuery "a1b2c3d4-e5f6-5789-9abc-def012345678" "" =
      QueryFilter.byKey "identifiers.mtgjsonV4Id"
        "a1b2c3d4-e5f6-5789-9abc-def012345678" ∧
    deckKeyQuery "DCK1" "user@example.com" =
      QueryFilter.byKeyOwner "code" "DCK1" "user@example.com" ∧
    deckKeyQuery "DCK1" "" = QueryFilter.byKey "code" "DCK1" := by
  decide

/-- C8 (counterexample): deck.AddCards merges the delta and issues the
full-document replace without touching the metadata block: after the
call the mainboard changed and the replace was traced, yet ModifiedDate
still holds its old value `t0`. -/
theorem C8_counterexample :
    (AddCards ⟨[], [], []⟩
        { code := "D1", name := "N", releaseDate := "", mainBoard := [],
          sideBoard := [], commander := [], contents := none,
          mtgjsonApiMeta := some ⟨"system", "Deck", "", "t0", "t0"⟩ }
        BoardMainboard [("a", 1)]).deck.mainBoard = [("a", 1)] ∧
    (AddCards ⟨[], [], []⟩
        { code := "D1", name := "N", releaseDate := "", mainBoard := [],
          sideBoard := [], commander := [], contents := none,
          mtgjsonApiMeta := some ⟨"system", "Deck", "", "t0", "t0"⟩ }
        BoardMainboard [("a", 1)]).deck.mtgjsonApiMeta =
      some ⟨"system", "Deck", "", "t0", "t0"⟩ ∧
    (AddCards ⟨[], [], []⟩
        { code := "D1", name := "N", releaseDate := "", mainBoard := [],
          sideBoard := [], commander := [], contents := none,
          mtgjsonApiMeta := some ⟨"system", "Deck", "", "t0", "t0"⟩ }
        BoardMainboard [("a", 1)]).trace =
      [DbCall.replace "deck" (QueryFilter.byKey "code" "D1")] := by
  refine ⟨?_, ?_, ?_⟩ <;> decide

/-- C8 (amended): deck.AddCards and deck.RemoveCards do not refresh the
ModifiedDate timestamp: they leave the deck's entire metadata block
unchanged while merging the delta and issuing the replace.  (The claim
as stated fails — only the Set-level AddCards/RemoveCards revisions
stamp ModifiedDate before their replace; the deck operations never touch
the metadata, see the counterexample.) -/
theorem C8_no_modifieddate_refresh (db : DB) (deck : Deck) (board : String)
    (delta : List (String × Int)) :
    (AddCards db deck board delta).deck.mtgjsonApiMeta = deck.mtgjsonApiMeta ∧
    (RemoveCards db deck board delta).deck.mtgjsonApiMeta = deck.mtgjsonApiMeta := by
  constructor
  · by_cases hcode : deck.code = ""
    · rw [addCards_deck_of_empty_code _ _ _ _ hcode]
    · rcases getDeckBoard_cases deck board with h1 | h2 | h3 | herr
      · subst h1
        rw [addCards_deck_eq _ _ _ _ hcode _ (getDeckBoard_main deck)]
        exact setBoards_meta _ _ _
      · subst h2
        rw [addCards_deck_eq _ _ _ _ hcode _ (getDeckBoard_side deck)]
        exact setBoards_meta _ _ _
      · subst h3
        rw [addCards_deck_eq _ _ _ _ hcode _ (getDeckBoard_commander deck)]
        exact setBoards_meta _ _ _
      · rw [addCards_deck_of_bad_board _ _ _ _ hcode _ herr]
  · by_cases hcode : deck.code = ""
    · rw [removeCards_deck_of_empty_code _ _ _ _ hcode]
    · rcases getDeckBoard_cases deck board with h1 | h2 | h3 | herr
      · subst h1
        rw [removeCards_deck_eq _ _ _ _ hcode _ (getDeckBoard_main deck)]
        exact setBoards_meta _ _ _
      · subst h2
        rw [removeCards_deck_eq _ _ _ _ hcode _ (getDeckBoard_side deck)]
        exact setBoards_meta _ _ _
      · subst h3
        rw [removeCards_deck_eq _ _ _ _ hcode _ (getDeckBoard_commander deck)]
        exact setBoards_meta _ _ _
      · rw [removeCards_deck_of_bad_board _ _ _ _ hcode _ herr]

/-- Resolvability of an effective owner: the reserved system principal,
or a well-formed email naming an existing user. -/
def OwnerOk (db : DB) (o : String) : Prop :=
  o = SystemUser ∨ (o ≠ "" ∧ validateEmail o = true ∧ ∃ u ∈ db.users, u.email = o)

theorem effectiveOwner_ne_empty (owner : String) : effectiveOwner owner ≠ "" := by
  unfold effectiveOwner
  by_cases h : owner = ""
  · rw [if_pos h]
    decide
  · rw [if_neg h]
    exact h

theorem deckKeyQuery_owner (code o : String) (h : o ≠ "") :
    deckKeyQuery code o = .byKeyOwner "code" code o := by
  unfold deckKeyQuery
  rw [if_pos h]

theorem cardKeyQuery_owner (uuid o : String) (h : o ≠ "") :
    cardKeyQuery uuid o = .byKeyOwner "identifiers.mtgjsonV4Id" uuid o := by
  unfold cardKeyQuery
  rw [if_pos h]

theorem resolveOwnerStep_ok (db : DB) (o : String) (h : OwnerOk db o) :
    ∃ t, resolveOwnerStep db o = (none, t) := by
  unfold resolveOwnerStep
  by_cases hsys : o = SystemUser
  · rw [if_neg (fun hn => hn hsys)]
    exact ⟨[], rfl⟩
  · rcases h with h | ⟨hne, hv, hu⟩
    · exact absurd h hsys
    · rw [if_pos hsys]
      unfold GetUser
      rw [if_neg hne, if_neg (by simp [hv])]
      have hsome : (db.findUser o).isSome := by
        unfold DB.findUser
        apply List.find?_isSome.mpr
        rcases hu with ⟨u, hmem, he⟩
        exact ⟨u, hmem, by simp [he]⟩
      rcases Option.isSome_iff_exists.mp hsome with ⟨u, hu'⟩
      rw [hu']
      exact ⟨_, rfl⟩

theorem getDeck_none (db : DB) (code o : String)
    (h : db.findDeck (deckKeyQuery code o) = none) :
    GetDeck db code o =
      (.error .errNoDeck, [.find "deck" (deckKeyQuery code o)]) := by
  unfold GetDeck
  simp [h]

theorem getDeck_some (db : DB) (code o : String) (d : Deck)
    (h : db.findDeck (deckKeyQuery code o) = some d) :
    GetDeck db code o = (.ok d, [.find "deck" (deckKeyQuery code o)]) := by
  unfold GetDeck
  simp [h]

theorem newDeck_success (db : DB) (deck : Deck) (owner now : String)
    (hname : deck.name ≠ "") (hcode : deck.code ≠ "")
    (howner : OwnerOk db (effectiveOwner owner))
    (hfresh : db.findDeck (deckKeyQuery deck.code (effectiveOwner owner)) = none) :
    (NewDeck db deck owner now).err = none ∧
    (NewDeck db deck owner now).db =
      db.insertDeck (stampNewDeck deck (effectiveOwner owner) now) := by
  unfold NewDeck
  rw [if_neg (not_or.mpr ⟨hname, hcode⟩)]
  rcases resolveOwnerStep_ok db _ howner with ⟨t, ht⟩
  simp [ht, getDeck_none db deck.code (effectiveOwner owner) hfresh, isErrNoDeck]

theorem newDeck_conflict (db : DB) (deck : Deck) (owner now : String) (d : Deck)
    (hname : deck.name ≠ "") (hcode : deck.code ≠ "")
    (howner : OwnerOk db (effectiveOwner owner))
    (hfound : db.findDeck (deckKeyQuery deck.code (effectiveOwner owner)) = some d) :
    (NewDeck db deck owner now).err = some .errDeckAlreadyExists ∧
    (NewDeck db deck owner now).db = db := by
  unfold NewDeck
  rw [if_neg (not_or.mpr ⟨hname, hcode⟩)]
  rcases resolveOwnerStep_ok db _ howner with ⟨t, ht⟩
  simp [ht, getDeck_some db deck.code (effectiveOwner owner) d hfound, isErrNoDeck]

theorem stampNewDeck_code (deck : Deck) (o now : String) :
    (stampNewDeck deck o now).code = deck.code := by
  simp [stampNewDeck, apply_ite Deck.code]

theorem stampNewDeck_matches (deck : Deck) (o now : String) :
    (stampNewDeck deck o now).matches
      (QueryFilter.byKeyOwner "code" deck.code o) = true := by
  have hmeta : (stampNewDeck deck o now).mtgjsonApiMeta =
      some ⟨o, "Deck", "", now, now⟩ := rfl
  unfold Deck.matches
  rw [hmeta, stampNewDeck_code]
  simp

theorem getCard_none (db : DB) (uuid o : String)
    (hv : ValidateUUID uuid = true)
    (h : db.findCard (cardKeyQuery uuid o) = none) :
    GetCard db uuid o =
      (.error .errNoCard, [.find "card" (cardKeyQuery uuid o)]) := by
  unfold GetCard
  simp [hv, h]

theorem getCard_some (db : DB) (uuid o : String) (c : CardSet)
    (hv : ValidateUUID uuid = true)
    (h : db.findCard (cardKeyQuery uuid o) = some c) :
    GetCard db uuid o = (.ok c, [.find "card" (cardKeyQuery uuid o)]) := by
  unfold GetCard
  simp [hv, h]

theorem newCard_success (db : DB) (card : CardSet) (owner now : String)
    (idents : CardIdentifiers) (hid : card.identifiers = some idents)
    (hname : card.name ≠ "") (hcid : idents.mtgjsonV4Id ≠ "")
    (hv : ValidateUUID idents.mtgjsonV4Id = true)
    (howner : OwnerOk db (effectiveOwner owner))
    (hfresh : db.findCard
      (cardKeyQuery idents.mtgjsonV4Id (effectiveOwner owner)) = none) :
    (NewCard db card owner now).err = none ∧
    (NewCard db card owner now).db =
      { db with cards :=
        db.cards ++ [stampNewCard card (effectiveOwner owner) now] } := by
  unfold NewCard
  simp only [hid]
  rw [if_neg (not_or.mpr ⟨hname, hcid⟩)]
  rcases resolveOwnerStep_ok db _ howner with ⟨t, ht⟩
  simp [ht, getCard_none db idents.mtgjsonV4Id (effectiveOwner owner) hv hfresh,
    isErrNoCard]

theorem newCard_conflict (db : DB) (card : CardSet) (owner now : String)
    (idents : CardIdentifiers) (c : CardSet) (hid : card.identifiers = some idents)
    (hname : card.name ≠ "") (hcid : idents.mtgjsonV4Id ≠ "")
    (hv : ValidateUUID idents.mtgjsonV4Id = true)
    (howner : OwnerOk db (effectiveOwner owner))
    (hfound : db.findCard
      (cardKeyQuery idents.mtgjsonV4Id (effectiveOwner owner)) = some c) :
    (NewCard db card owner now).err = some .errCardAlreadyExist ∧
    (NewCard db card owner now).db = db := by
  unfold NewCard
  simp only [hid]
  rw [if_neg (not_or.mpr ⟨hname, hcid⟩)]
  rcases resolveOwnerStep_ok db _ howner with ⟨t, ht⟩
  simp [ht, getCard_some db idents.mtgjsonV4Id (effectiveOwner owner) c hv hfound,
    isErrNoCard]

theorem stampNewCard_matches (card : CardSet) (idents : CardIdentifiers)
    (o now : String) (hid : card.identifiers = some idents) :
    (stampNewCard card o now).matchesFilter
      (QueryFilter.byKeyOwner "identifiers.mtgjsonV4Id" idents.mtgjsonV4Id o) =
      true := by
  unfold CardSet.matchesFilter stampNewCard CardSet.cardId
  simp [hid]

/-- C6: calling the create operation twice in sequence with the same
natural key and the same owner scope — NewDeck for decks and NewCard for
cards — returns success on the first call and the AlreadyExists error on
the second, which probes the key(+owner) before inserting, finds the
first call's document, and leaves the store unchanged with the first
inserted document still in place. -/
theorem C6_create_conflict
    (db : DB) (deck : Deck) (card : CardSet) (idents : CardIdentifiers)
    (owner now1 now2 : String)
    (hdname : deck.name ≠ "") (hdcode : deck.code ≠ "")
    (hcid : card.identifiers = some idents) (hcname : card.name ≠ "")
    (hcidne : idents.mtgjsonV4Id ≠ "")
    (hcv : ValidateUUID idents.mtgjsonV4Id = true)
    (howner : OwnerOk db (effectiveOwner owner))
    (hdfresh : db.findDeck
      (deckKeyQuery deck.code (effectiveOwner owner)) = none)
    (hcfresh : db.findCard
      (cardKeyQuery idents.mtgjsonV4Id (effectiveOwner owner)) = none) :
    ((NewDeck db deck owner now1).err = none ∧
      (NewDeck (NewDeck db deck owner now1).db deck owner now2).err =
        some .errDeckAlreadyExists ∧
      (NewDeck (NewDeck db deck owner now1).db deck owner now2).db =
        (NewDeck db deck owner now1).db ∧
      stampNewDeck deck (effectiveOwner owner) now1 ∈
        (NewDeck (NewDeck db deck owner now1).db deck owner now2).db.decks) ∧
    ((NewCard db card owner now1).err = none ∧
      (NewCard (NewCard db card owner now1).db card owner now2).err =
        some .errCardAlreadyExist ∧
      (NewCard (NewCard db card owner now1).db card owner now2).db =
        (NewCard db card owner now1).db ∧
      stampNewCard card (effectiveOwner owner) now1 ∈
        (NewCard (NewCard db card owner now1).db card owner now2).db.cards) := by
  have hq : deckKeyQuery deck.code (effectiveOwner owner) =
      QueryFilter.byKeyOwner "code" deck.code (effectiveOwner owner) :=
    deckKeyQuery_owner _ _ (effectiveOwner_ne_empty owner)
  have hqc : cardKeyQuery idents.mtgjsonV4Id (effectiveOwner owner) =
      QueryFilter.byKeyOwner "identifiers.mtgjsonV4Id" idents.mtgjsonV4Id
        (effectiveOwner owner) :=
    cardKeyQuery_owner _ _ (effectiveOwner_ne_empty owner)
  obtain ⟨hde1, hddb1⟩ := newDeck_success db deck owner now1 hdname hdcode howner hdfresh
  obtain ⟨hce1, hcdb1⟩ := newCard_success db card owner now1 idents hcid hcname
    hcidne hcv howner hcfresh
  have hdowner1 : OwnerOk (NewDeck db deck owner now1).db (effectiveOwner owner) := by
    rw [hddb1]
    exact howner
  have hcowner1 : OwnerOk (NewCard db card owner now1).db (effectiveOwner owner) := by
    rw [hcdb1]
    exact howner
  have hdfound : (NewDeck db deck owner now1).db.findDeck
      (deckKeyQuery deck.code (effectiveOwner owner)) =
      some (stampNewDeck deck (effectiveOwner owner) now1) := by
    rw [hddb1]
    have hnone : db.decks.find?
        (fun d => d.matches (deckKeyQuery deck.code (effectiveOwner owner))) =
        none := hdfresh
    show (db.decks ++ [stampNewDeck deck (effectiveOwner owner) now1]).find?
        (fun d => d.matches (deckKeyQuery deck.code (effectiveOwner owner))) =
      some (stampNewDeck deck (effectiveOwner owner) now1)
    rw [List.find?_append, hnone]
    simp [hq, List.find?_cons, stampNewDeck_matches]
  have hcfound : (NewCard db card owner now1).db.findCard
      (cardKeyQuery idents.mtgjsonV4Id (effectiveOwner owner)) =
      some (stampNewCard card (effectiveOwner owner) now1) := by
    rw [hcdb1]
    have hnone : db.cards.find?
        (fun c => c.matchesFilter
          (cardKeyQuery idents.mtgjsonV4Id (effectiveOwner owner))) =
        none := hcfresh
    show (db.cards ++ [stampNewCard card (effectiveOwner owner) now1]).find?
        (fun c => c.matchesFilter
          (cardKeyQuery idents.mtgjsonV4Id (effectiveOwner owner))) =
      some (stampNewCard card (effectiveOwner owner) now1)
    rw [List.find?_append, hnone]
    simp [hqc, List.find?_cons, stampNewCard_matches card idents _ now1 hcid]
  obtain ⟨hde2, hddb2⟩ := newDeck_conflict (NewDeck db deck owner now1).db deck
    owner now2 _ hdname hdcode hdowner1 hdfound
  obtain ⟨hce2, hcdb2⟩ := newCard_conflict (NewCard db card owner now1).db card
    owner now2 idents _ hcid hcname hcidne hcv hcowner1 hcfound
  refine ⟨⟨hde1, hde2, hddb2, ?_⟩, ⟨hce1, hce2, hcdb2, ?_⟩⟩
  · rw [hddb2, hddb1]
    unfold DB.insertDeck
    simp
  · rw [hcdb2, hcdb1]
    simp

/-- C6 (witness): creating deck `D1` and card
`a1b2c3d4-e5f6-5789-9abc-def012345678` twice against an empty store
under the system owner scope. -/
theorem C6_witness :
    ((NewDeck ⟨[], [], []⟩
        { code := "D1", name := "N", releaseDate := "", mainBoard := [],
          sideBoard := [], commander := [], contents := none,
          mtgjsonApiMeta := none } "" "t1").err = none ∧
      (NewDeck (NewDeck ⟨[], [], []⟩
          { code := "D1", name := "N", releaseDate := "", mainBoard := [],
            sideBoard := [], commander := [], contents := none,
            mtgjsonApiMeta := none } "" "t1").db
        { code := "D1", name := "N", releaseDate := "", mainBoard := [],
          sideBoard := [], commander := [], contents := none,
          mtgjsonApiMeta := none } "" "t2").err = some .errDeckAlreadyExists ∧
      (NewDeck (NewDeck ⟨[], [], []⟩
          { code := "D1", name := "N", releaseDate := "", mainBoard := [],
            sideBoard := [], commander := [], contents := none,
            mtgjsonApiMeta := none } "" "t1").db
        { code := "D1", name := "N", releaseDate := "", mainBoard := [],
          sideBoard := [], commander := [], contents := none,
          mtgjsonApiMeta := none } "" "t2").db =
        (NewDeck ⟨[], [], []⟩
          { code := "D1", name := "N", releaseDate := "", mainBoard := [],
            sideBoard := [], commander := [], contents := none,
            mtgjsonApiMeta := none } "" "t1").db ∧
      stampNewDeck
          { code := "D1", name := "N", releaseDate := "", mainBoard := [],
            sideBoard := [], commander := [], contents := none,
            mtgjsonApiMeta := none } (effectiveOwner "") "t1" ∈
        (NewDeck (NewDeck ⟨[], [], []⟩
            { code := "D1", name := "N", releaseDate := "", mainBoard := [],
              sideBoard := [], commander := [], contents := none,
              mtgjsonApiMeta := none } "" "t1").db
          { code := "D1", name := "N", releaseDate := "", mainBoard := [],
            sideBoard := [], commander := [], contents := none,
            mtgjsonApiMeta := none } "" "t2").db.decks) ∧
    ((NewCard ⟨[], [], []⟩
        ⟨"CardA", some ⟨"a1b2c3d4-e5f6-5789-9abc-def012345678"⟩, none⟩
        "" "t1").err = none ∧
      (NewCard (NewCard ⟨[], [], []⟩
          ⟨"CardA", some ⟨"a1b2c3d4-e5f6-5789-9abc-def012345678"⟩, none⟩
          "" "t1").db
        ⟨"CardA", some ⟨"a1b2c3d4-e5f6-5789-9abc-def012345678"⟩, none⟩
        "" "t2").err = some .errCardAlreadyExist ∧
      (NewCard (NewCard ⟨[], [], []⟩
          ⟨"CardA", some ⟨"a1b2c3d4-e5f6-5789-9abc-def012345678"⟩, none⟩
          "" "t1").db
        ⟨"CardA", some ⟨"a1b2c3d4-e5f6-5789-9abc-def012345678"⟩, none⟩
        "" "t2").db =
        (NewCard ⟨[], [], []⟩
          ⟨"CardA", some ⟨"a1b2c3d4-e5f6-5789-9abc-def012345678"⟩, none⟩
          "" "t1").db ∧
      stampNewCard
          ⟨"CardA", some ⟨"a1b2c3d4-e5f6-5789-9abc-def012345678"⟩, none⟩
          (effectiveOwner "") "t1" ∈
        (NewCard (NewCard ⟨[], [], []⟩
            ⟨"CardA", some ⟨"a1b2c3d4-e5f6-5789-9abc-def012345678"⟩, none⟩
            "" "t1").db
          ⟨"CardA", some ⟨"a1b2c3d4-e5f6-5789-9abc-def012345678"⟩, none⟩
          "" "t2").db.cards) :=
  C6_create_conflict ⟨[], [], []⟩
    { code := "D1", name := "N", releaseDate := "", mainBoard := [],
      sideBoard := [], commander := [], contents := none, mtgjsonApiMeta := none }
    ⟨"CardA", some ⟨"a1b2c3d4-e5f6-5789-9abc-def012345678"⟩, none⟩
    ⟨"a1b2c3d4-e5f6-5789-9abc-def012345678"⟩ "" "t1" "t2"
    (by decide) (by decide) rfl (by decide) (by decide) (by decide)
    (Or.inl (by decide)) rfl rfl

/-- C7 (counterexample): DeleteCard performs no card-key validation:
called with the malformed key `not-a-uuid` (which `ValidateUUID`
rejects) it issues the DeleteOne persistence call with that key inside
the filter — the malformed key reaches storage — and returns the
not-found error rather than the validation error. -/
theorem C7_counterexample :
    DeleteCard ⟨[], [], []⟩ "not-a-uuid" "" =
      ⟨some .errNoCard, ⟨[], [], []⟩,
        [DbCall.delete "card"
          (QueryFilter.byKey "identifiers.mtgjsonV4Id" "not-a-uuid")]⟩ ∧
    ValidateUUID "not-a-uuid" = false := by
  constructor
  · decide
  · decide

/-- C7 (amended): GetCard returns the InvalidIdentifier error for a
malformed card key before any persistence call, and the create
operations return the MissingRequiredField error for a missing
identifier block, empty name, or empty natural key before any
persistence call — but DeleteCard is excluded: it performs no key
validation and passes a malformed key straight into the storage delete
filter (see the counterexample). -/
theorem C7_validation_fail_fast
    (db : DB) (uuid owner : String) (card : CardSet) (deck : Deck) (now : String)
    (huuid : ValidateUUID uuid = false)
    (hcard : card.identifiers = none ∨ card.name = "" ∨ card.cardId = some "")
    (hdeck : deck.name = "" ∨ deck.code = "") :
    GetCard db uuid owner = (.error .errInvalidUUID, []) ∧
    ((NewCard db card owner now).err = some .errCardMissingId ∧
      (NewCard db card owner now).db = db ∧
      (NewCard db card owner now).trace = []) ∧
    ((NewDeck db deck owner now).err = some .errDeckMissingId ∧
      (NewDeck db deck owner now).db = db ∧
      (NewDeck db deck owner now).trace = []) := by
  refine ⟨?_, ?_, ?_⟩
  · unfold GetCard
    rw [if_pos huuid]
  · rcases hci : card.identifiers with _ | idents
    · unfold NewCard
      simp [hci]
    · have hor : card.name = "" ∨ idents.mtgjsonV4Id = "" := by
        rcases hcard with h | h | h
        · rw [hci] at h
          cases h
        · exact Or.inl h
        · right
          rw [CardSet.cardId, hci] at h
          simpa using h
      unfold NewCard
      simp only [hci]
      rw [if_pos hor]
      exact ⟨rfl, rfl, rfl⟩
  · unfold NewDeck
    rw [if_pos hdeck]
    exact ⟨rfl, rfl, rfl⟩

/-- C7 (witness): the amended fail-fast property at the malformed key
`not-a-uuid`, a card without its identifier block, and a deck with an
empty name. -/
theorem C7_witness :
    GetCard ⟨[], [], []⟩ "not-a-uuid" "" = (.error .errInvalidUUID, []) ∧
    ((NewCard ⟨[], [], []⟩ ⟨"CardA", none, none⟩ "" "t1").err =
        some .errCardMissingId ∧
      (NewCard ⟨[], [], []⟩ ⟨"CardA", none, none⟩ "" "t1").db = ⟨[], [], []⟩ ∧
      (NewCard ⟨[], [], []⟩ ⟨"CardA", none, none⟩ "" "t1").trace = []) ∧
    ((NewDeck ⟨[], [], []⟩
        { code := "D1", name := "", releaseDate := "", mainBoard := [],
          sideBoard := [], commander := [], contents := none,
          mtgjsonApiMeta := none } "" "t1").err = some .errDeckMissingId ∧
      (NewDeck ⟨[], [], []⟩
        { code := "D1", name := "", releaseDate := "", mainBoard := [],
          sideBoard := [], commander := [], contents := none,
          mtgjsonApiMeta := none } "" "t1").db = ⟨[], [], []⟩ ∧
      (NewDeck ⟨[], [], []⟩
        { code := "D1", name := "", releaseDate := "", mainBoard := [],
          sideBoard := [], commander := [], contents := none,
          mtgjsonApiMeta := none } "" "t1").trace = []) :=
  C7_validation_fail_fast ⟨[], [], []⟩ "not-a-uuid" "" ⟨"CardA", none, none⟩
    { code := "D1", name := "", releaseDate := "", mainBoard := [],
      sideBoard := [], commander := [], contents := none, mtgjsonApiMeta := none }
    "t1" (by decide) (Or.inl rfl) (Or.inl rfl)
